import Mathlib

/-!
Shallow embedding of the VYRN transpiler front end.

The definitions below are translated from the repository sources:
- src/backend/parser/ast_parser.hpp  (lexer `Lexer`, parser `Parser`) — namespaces
  VYRN.VLex and VYRN.VParse.  src/compiler/lexer.hpp and src/compiler/parser.hpp
  contain the same lexer/parser logic (same operator sets, same evaluation
  folds), so one embedding covers both lineages.
- src/backend/parser/code_generator.cpp (`CodeGenerator`) — namespace VYRN.CodeGen.
- src/lexer.cpp, src/parser.cpp, src/ast.hpp (evaluator path) — namespace VYRN.Interp.

Machine integers are modelled as Lean Int (C++ signed-overflow UB is not
exercised by any claim); C++ float/double values are modelled as exact
rationals (IEEE rounding is abstracted; every concrete value appearing in a
claim is exactly representable).  Loops whose C++ termination argument is
"the position strictly advances" are given an explicit fuel parameter that
wrappers instantiate with a sufficient bound.
-/

namespace VYRN

/-- C locale isspace: space, tab, newline, vertical tab, form feed, carriage return. -/
def isSpaceC (c : Char) : Bool :=
  c = ' ' || c = '\t' || c = '\n' || c = '\x0b' || c = '\x0c' || c = '\r'

/-- C locale isalpha restricted to ASCII letters. -/
def isAlphaC (c : Char) : Bool :=
  ('a' ≤ c && c ≤ 'z') || ('A' ≤ c && c ≤ 'Z')

/-- C locale isdigit. -/
def isDigitC (c : Char) : Bool := '0' ≤ c && c ≤ '9'

/-- C locale isalnum restricted to ASCII. -/
def isAlnumC (c : Char) : Bool := isAlphaC c || isDigitC c

namespace VLex

/-- TokenType from src/backend/parser/ast_parser.hpp. -/
inductive TokenType where
  | Identifier
  | Keyword
  | Type
  | Number
  | STRING
  | BOOL
  | Symbol
  | EndOfFile
  | Unknown
  | BooleanOperator
deriving DecidableEq, Repr

/-- Token from src/backend/parser/ast_parser.hpp. -/
structure Token where
  type : TokenType
  value : String
  line : Nat
  column : Nat
deriving DecidableEq, Repr

/-- Keyword set from ast_parser.hpp. -/
def keywords : List String := ["let", "const"]

/-- Type-name set from ast_parser.hpp. -/
def types : List String := ["int", "float", "bool", "string"]

/-- Boolean-operator word set from ast_parser.hpp. -/
def boolean_operator : List String :=
  ["!", "||", "!||", "&&", "!&&", "==", "!=", "<", "<=", ">", ">=", "=>", "!=>", "xor", "nxor"]

/-- Lexer state: the not-yet-consumed characters (the input after `pos`),
and the 1-based line/column counters. -/
structure LexState where
  rest : List Char
  line : Nat
  column : Nat
deriving DecidableEq, Repr

/-- Fresh lexer over an input string (pos = 0, line = 1, column = 1). -/
def initState (s : String) : LexState := ⟨s.data, 1, 1⟩

/-- Line/column accounting of Lexer::advance for one character. -/
def advChar (c : Char) (line column : Nat) : Nat × Nat :=
  if c = '\n' then (line + 1, 1) else (line, column + 1)

/-- Line/column accounting of repeated Lexer::advance over a run. -/
def advChars : List Char → Nat → Nat → Nat × Nat
  | [], l, c => (l, c)
  | x :: xs, l, c => advChars xs (advChar x l c).1 (advChar x l c).2

/-- Inner loop of the block-comment skip in Lexer::skip_white_space:
consume characters (updating line/column) until the two-character
terminator is at the front or the input ends. -/
def skipBlockBody : List Char → Nat → Nat → List Char × Nat × Nat
  | [], l, c => ([], l, c)
  | x :: xs, l, c =>
    if x = '*' ∧ xs.head? = some '/' then (x :: xs, l, c)
    else skipBlockBody xs (advChar x l c).1 (advChar x l c).2

/-- Lexer::skip_white_space from ast_parser.hpp.  Whitespace updates
line/column; a line comment is skipped without any line/column update (its
terminating newline, if present, is handled by the whitespace branch); a
block comment updates line/column only for its body characters — the source
advances `pos += 2` over the two delimiters without touching `column`.
Each loop iteration consumes at least one character, so fuel
`rest.length + 1` always suffices. -/
def skipWs : Nat → LexState → LexState
  | 0, st => st
  | fuel + 1, st =>
    match st.rest with
    | [] => st
    | c :: cs =>
      if isSpaceC c then
        if c = '\n' then skipWs fuel ⟨cs, st.line + 1, 1⟩
        else skipWs fuel ⟨cs, st.line, st.column + 1⟩
      else if c = '/' ∧ cs ≠ [] then
        if cs.head? = some '/' then
          skipWs fuel ⟨(c :: cs).dropWhile (· ≠ '\n'), st.line, st.column⟩
        else if cs.head? = some '*' then
          skipWs fuel
            (match skipBlockBody cs.tail st.line st.column with
             | (r, l2, c2) => ⟨if r = [] then [] else r.drop 2, l2, c2⟩)
        else st
      else st

/-- The three-character operator list from Lexer::next_token. -/
def threeOps : List String := ["!&&", "!||", "!=>"]

/-- The two-character operator list from Lexer::next_token. -/
def twoOps : List String := ["&&", "||", "==", "!=", "<=", ">=", "=>"]

/-- Word classification order from Lexer::next_token: keyword set, type
set, boolean literals, boolean-operator words, then identifier. -/
def classifyWord (w : String) : TokenType :=
  if w ∈ keywords then .Keyword
  else if w ∈ types then .Type
  else if w = "true" || w = "false" then .BOOL
  else if w ∈ boolean_operator then .BooleanOperator
  else .Identifier

/-- The classification part of Lexer::next_token (after whitespace/comment
skipping).  Position guards `pos + 2 < size` / `pos + 1 < size` become
length bounds on the remaining characters. -/
def nextTokenCore (st : LexState) : Token × LexState :=
  match st.rest with
  | [] => (⟨.EndOfFile, "", st.line, st.column⟩, st)
  | c :: cs =>
    let tokLine := st.line
    let tokCol := st.column
    let three := String.mk ((c :: cs).take 3)
    let two := String.mk ((c :: cs).take 2)
    if (c :: cs).length ≥ 3 ∧ three ∈ threeOps then
      (⟨.BooleanOperator, three, tokLine, tokCol⟩, ⟨(c :: cs).drop 3, st.line, st.column + 3⟩)
    else if (c :: cs).length ≥ 2 ∧ two ∈ twoOps then
      (⟨.BooleanOperator, two, tokLine, tokCol⟩, ⟨(c :: cs).drop 2, st.line, st.column + 2⟩)
    else if isAlphaC c || c = '_' then
      let w := (c :: cs).takeWhile (fun x => isAlnumC x || x = '_')
      let rest := (c :: cs).dropWhile (fun x => isAlnumC x || x = '_')
      (⟨classifyWord (String.mk w), String.mk w, tokLine, tokCol⟩,
       ⟨rest, (advChars w st.line st.column).1, (advChars w st.line st.column).2⟩)
    else if c = '"' then
      let p0 := advChar c st.line st.column
      let body := cs.takeWhile (· ≠ '"')
      let rest1 := cs.dropWhile (· ≠ '"')
      let p1 := advChars body p0.1 p0.2
      (⟨.STRING, String.mk body, tokLine, tokCol⟩,
       match rest1 with
       | [] => ⟨[], p1.1, p1.2⟩
       | q :: qs => ⟨qs, (advChar q p1.1 p1.2).1, (advChar q p1.1 p1.2).2⟩)
    else if isDigitC c then
      let w := (c :: cs).takeWhile (fun x => isDigitC x || x = ',' || x = '.')
      let rest := (c :: cs).dropWhile (fun x => isDigitC x || x = ',' || x = '.')
      (⟨.Number, String.mk w, tokLine, tokCol⟩,
       ⟨rest, (advChars w st.line st.column).1, (advChars w st.line st.column).2⟩)
    else if c = '<' || c = '>' then
      (⟨.BooleanOperator, String.mk [c], tokLine, tokCol⟩, ⟨cs, st.line, st.column + 1⟩)
    else if c = '!' then
      (⟨.BooleanOperator, "!", tokLine, tokCol⟩, ⟨cs, st.line, st.column + 1⟩)
    else
      (⟨.Symbol, String.mk [c], tokLine, tokCol⟩,
       ⟨cs, (advChar c st.line st.column).1, (advChar c st.line st.column).2⟩)

/-- Lexer::next_token: skip whitespace/comments, then classify. -/
def nextToken (st : LexState) : Token × LexState :=
  nextTokenCore (skipWs (st.rest.length + 1) st)

/-- Repeated next_token until EndOfFile; the EndOfFile token is kept as the
final element (the C++ lexer keeps returning it). -/
def lexAllAux : Nat → LexState → List Token
  | 0, _ => []
  | fuel + 1, st =>
    let r := nextToken st
    if r.1.type = .EndOfFile then [r.1]
    else r.1 :: lexAllAux fuel r.2

/-- Token stream of a whole input string. -/
def lexAll (s : String) : List Token := lexAllAux (s.length + 2) (initState s)

end VLex

namespace VParse

/-- ParseError from ast_parser.hpp. -/
structure PError where
  message : String
  line : Nat
  column : Nat
deriving DecidableEq, Repr

/-- LiteralNode from ast_parser.hpp. -/
structure LiteralNode where
  type : String
  value : String
  is_reference : Bool
deriving DecidableEq, Repr

/-- IntNode constructor. -/
def IntNode (v : String) : LiteralNode := ⟨"int", v, false⟩

/-- FloatNode constructor. -/
def FloatNode (v : String) : LiteralNode := ⟨"float", v, false⟩

/-- StringNode constructor. -/
def StringNode (v : String) : LiteralNode := ⟨"string", v, false⟩

/-- BoolNode constructor. -/
def BoolNode (v : String) : LiteralNode := ⟨"bool", v, false⟩

/-- DeclarationNode from ast_parser.hpp. -/
structure DeclarationNode where
  is_const : Bool
  is_reference : Bool
  type : String
  name : String
  value : LiteralNode
deriving DecidableEq, Repr

/-- AssignNode from ast_parser.hpp.  The `expr` member is a shared_ptr to an
arbitrary ASTNode in the source, but the only value the parser ever stores
there is the BoolNode produced by eval_bool_expression (nothing in the
repository constructs MultiOpNode/MultiOpBoolNode/CompareNode), so
`Option LiteralNode` models every reachable state. -/
structure AssignNode where
  target_variable : String
  source_variable : String
  is_reference : Bool
  expr : Option LiteralNode
deriving DecidableEq, Repr

/-- The current-token slot once the lexer is exhausted: the C++ lexer keeps
returning EndOfFile tokens, so a parser past the end of the finite token
list sees an EndOfFile token. -/
def eofTok : VLex.Token := ⟨.EndOfFile, "", 0, 0⟩

/-- The parser's one-token lookahead over the remaining token list. -/
def cur (ts : List VLex.Token) : VLex.Token := ts.headD eofTok

/-- Parser::expect — consume-or-fail; an empty expected value means
"any value of this type". -/
def expectTok (ty : VLex.TokenType) (v : String) (ts : List VLex.Token) :
    Except PError (List VLex.Token) :=
  if (cur ts).type ≠ ty ∨ (v ≠ "" ∧ (cur ts).value ≠ v) then
    .error ⟨"Unexpected token: '" ++ (cur ts).value ++ "'", (cur ts).line, (cur ts).column⟩
  else
    .ok ts.tail

/-- Fuel-exhaustion marker (an artifact of the embedding; unreachable when
the wrapper fuel bound is respected). -/
def fuelError : PError := ⟨"out of fuel", 0, 0⟩

/-! Parser::eval_expression: the three nested lambdas parse_primary /
parse_factor / parse_expression folding an arithmetic expression to
parenthesized infix text.  The while loops become the *Loop functions. -/

mutual

/-- parse_primary of eval_expression. -/
def aePrimary : Nat → List VLex.Token → Except PError (String × List VLex.Token)
  | 0, _ => .error fuelError
  | fuel + 1, ts =>
    let t := cur ts
    if t.type = .Symbol ∧ t.value = "(" then do
      let (v, ts1) ← aeExpr fuel ts.tail
      let ts2 ← expectTok .Symbol ")" ts1
      .ok ("(" ++ v ++ ")", ts2)
    else if t.type = .Number then
      .ok (t.value, ts.tail)
    else if t.type = .Identifier ∧ t.value = "sqrt" then do
      let ts1 ← expectTok .Symbol "(" ts.tail
      let (v, ts2) ← aeExpr fuel ts1
      let ts3 ← expectTok .Symbol ")" ts2
      .ok ("sqrt(" ++ v ++ ")", ts3)
    else if t.type = .Identifier then
      .ok (t.value, ts.tail)
    else if t.type = .Symbol ∧ t.value = "-" then do
      let (v, ts1) ← aePrimary fuel ts.tail
      .ok ("-" ++ v, ts1)
    else
      .error ⟨"Expected number, variable, parenthesis or sqrt", t.line, t.column⟩

/-- The while loop of parse_factor (operators * / %). -/
def aeFactorLoop : Nat → String → List VLex.Token → Except PError (String × List VLex.Token)
  | 0, _, _ => .error fuelError
  | fuel + 1, left, ts =>
    let t := cur ts
    if t.type = .Symbol ∧ (t.value = "*" ∨ t.value = "/" ∨ t.value = "%") then do
      let (right, ts1) ← aePrimary fuel ts.tail
      aeFactorLoop fuel ("(" ++ left ++ " " ++ t.value ++ " " ++ right ++ ")") ts1
    else
      .ok (left, ts)

/-- parse_factor of eval_expression. -/
def aeFactor : Nat → List VLex.Token → Except PError (String × List VLex.Token)
  | 0, _ => .error fuelError
  | fuel + 1, ts => do
    let (left, ts1) ← aePrimary fuel ts
    aeFactorLoop fuel left ts1

/-- The while loop of parse_expression (operators + -). -/
def aeExprLoop : Nat → String → List VLex.Token → Except PError (String × List VLex.Token)
  | 0, _, _ => .error fuelError
  | fuel + 1, left, ts =>
    let t := cur ts
    if t.type = .Symbol ∧ (t.value = "+" ∨ t.value = "-") then do
      let (right, ts1) ← aeFactor fuel ts.tail
      aeExprLoop fuel ("(" ++ left ++ " " ++ t.value ++ " " ++ right ++ ")") ts1
    else
      .ok (left, ts)

/-- parse_expression of eval_expression. -/
def aeExpr : Nat → List VLex.Token → Except PError (String × List VLex.Token)
  | 0, _ => .error fuelError
  | fuel + 1, ts => do
    let (left, ts1) ← aeFactor fuel ts
    aeExprLoop fuel left ts1

end

/-- Parser::eval_expression — fold the expression to text, then wrap it in
an IntNode or FloatNode according to the expected type. -/
def eval_expression (fuel : Nat) (expected_type : String) (ts : List VLex.Token) :
    Except PError (LiteralNode × List VLex.Token) := do
  let (expr, ts1) ← aeExpr fuel ts
  if expected_type = "int" then .ok (IntNode expr, ts1)
  else .ok (FloatNode expr, ts1)

/-- Numeric value of a digit character. -/
def digitVal (c : Char) : Nat := c.toNat - '0'.toNat

/-- Decimal value of a digit run. -/
def digitsToNat (l : List Char) : Nat := l.foldl (fun a c => a * 10 + digitVal c) 0

/-- Exponent part of a strtof-style parse: optional sign then digits; a
malformed exponent is not consumed, leaving the value scaled by 10^0. -/
def expPart (l : List Char) : Int :=
  let sn : Bool × List Char := match l with
    | '-' :: t => (true, t)
    | '+' :: t => (false, t)
    | _ => (false, l)
  let ds := sn.2.takeWhile isDigitC
  if ds = [] then 0
  else if sn.1 then -(digitsToNat ds : Int) else (digitsToNat ds : Int)

/-- An exact, unnormalized fraction (denominator positive by construction).
Used to model C++ floating-point values so that all comparisons stay
kernel-computable. -/
structure Frac where
  num : Int
  den : Int
deriving DecidableEq, Repr

/-- Order on fractions via cross multiplication (denominators positive). -/
def Frac.lt (a b : Frac) : Bool := a.num * b.den < b.num * a.den

/-- Order-or-equal on fractions via cross multiplication. -/
def Frac.le (a b : Frac) : Bool := a.num * b.den ≤ b.num * a.den

/-- Value equality of fractions via cross multiplication. -/
def Frac.eqv (a b : Frac) : Bool := a.num * b.den = b.num * a.den

/-- Model of std::stof as used on the text produced by eval_expression:
optional whitespace, optional sign, decimal mantissa with optional fraction,
optional exponent.  The hexadecimal/infinity/NaN forms of strtof are outside
the model, and the value is kept as an exact rational (IEEE float rounding
is abstracted; every comparison a claim exercises is on exactly
representable values).  none models std::invalid_argument (no conversion). -/
def stofQ (s : String) : Option Frac :=
  let l0 := s.data.dropWhile isSpaceC
  let sn : Bool × List Char := match l0 with
    | '-' :: t => (true, t)
    | '+' :: t => (false, t)
    | _ => (false, l0)
  let ip := sn.2.takeWhile isDigitC
  let l1 := sn.2.dropWhile isDigitC
  let fq : List Char × List Char := match l1 with
    | '.' :: t => (t.takeWhile isDigitC, t.dropWhile isDigitC)
    | _ => ([], l1)
  if ip = [] ∧ fq.1 = [] then none
  else
    let mantNum : Int := (digitsToNat ip : Int) * (10 : Int) ^ fq.1.length + (digitsToNat fq.1 : Int)
    let mantDen : Int := (10 : Int) ^ fq.1.length
    let ex : Int := match fq.2 with
      | 'e' :: t => expPart t
      | 'E' :: t => expPart t
      | _ => 0
    let signedNum : Int := if sn.1 then -mantNum else mantNum
    some (if 0 ≤ ex then ⟨signedNum * (10 : Int) ^ ex.toNat, mantDen⟩
          else ⟨signedNum, mantDen * (10 : Int) ^ (-ex).toNat⟩)

/-- The operator list of the while condition in parse_expression of
eval_bool_expression. -/
def orLevelOps : List String :=
  ["||", "!||", "xor", "nxor", "=>", "!=>", "<", ">", "<=", ">=", "==", "!="]

/-- The if-chain in the loop body of parse_expression of
eval_bool_expression; an operator outside the chain leaves the accumulator
unchanged, mirroring the absence of a final else in the source. -/
def applyOrOp (op : String) (left right : Bool) : Bool :=
  if op = "||" then left || right
  else if op = "!||" then !(left || right)
  else if op = "xor" then left != right
  else if op = "nxor" then left == right
  else if op = "==" then left == right
  else if op = "!=" then left != right
  else if op = "=>" then !left || right
  else if op = "!=>" then left && !right
  else if op = "<" then !left && right
  else if op = "<=" then !left || right
  else if op = ">" then left && !right
  else if op = ">=" then left || !right
  else left

/-! Parser::eval_bool_expression: eager boolean evaluation during parsing.
parse_primary / parse_not / parse_and / parse_expression, with the two
while loops as pbAndLoop / pbExprLoop. -/

mutual

/-- parse_primary of eval_bool_expression: parentheses, boolean literals,
or an arithmetic comparison folded to a concrete boolean through stof. -/
def pbPrimary : Nat → List VLex.Token → Except PError (Bool × List VLex.Token)
  | 0, _ => .error fuelError
  | fuel + 1, ts =>
    let t := cur ts
    if t.type = .Symbol ∧ t.value = "(" then do
      let (v, ts1) ← pbExpr fuel ts.tail
      let ts2 ← expectTok .Symbol ")" ts1
      .ok (v, ts2)
    else if t.type = .BOOL then
      .ok (t.value = "true", ts.tail)
    else if t.type = .Number ∨ t.type = .Identifier ∨ (t.type = .Symbol ∧ t.value = "(") then do
      let (left, ts1) ← aeExpr fuel ts
      let u := cur ts1
      if (u.type = .Symbol ∨ u.type = .BooleanOperator) ∧
         (u.value = "<" ∨ u.value = ">" ∨ u.value = "<=" ∨ u.value = ">=" ∨
          u.value = "==" ∨ u.value = "!=") then do
        let (right, ts2) ← aeExpr fuel ts1.tail
        match stofQ left, stofQ right with
        | some lv, some rv =>
          if u.value = "<" then .ok (lv.lt rv, ts2)
          else if u.value = ">" then .ok (rv.lt lv, ts2)
          else if u.value = "<=" then .ok (lv.le rv, ts2)
          else if u.value = ">=" then .ok (rv.le lv, ts2)
          else if u.value = "==" then .ok (lv.eqv rv, ts2)
          else if u.value = "!=" then .ok (!(lv.eqv rv), ts2)
          else .error ⟨"unauthorized comparison operation", (cur ts2).line, (cur ts2).column⟩
        | _, _ => .error ⟨"std::stof: invalid_argument", 0, 0⟩
      else
        .error ⟨"unauthorized comparison operation", u.line, u.column⟩
    else
      .error ⟨"Expected boolean, variable or parenthesis", t.line, t.column⟩

/-- parse_not of eval_bool_expression. -/
def pbNot : Nat → List VLex.Token → Except PError (Bool × List VLex.Token)
  | 0, _ => .error fuelError
  | fuel + 1, ts =>
    let t := cur ts
    if t.type = .BooleanOperator ∧ t.value = "!" then do
      let (v, ts1) ← pbNot fuel ts.tail
      .ok (!v, ts1)
    else
      pbPrimary fuel ts

/-- The while loop of parse_and (operators && and !&&). -/
def pbAndLoop : Nat → Bool → List VLex.Token → Except PError (Bool × List VLex.Token)
  | 0, _, _ => .error fuelError
  | fuel + 1, left, ts =>
    let t := cur ts
    if t.type = .BooleanOperator ∧ (t.value = "&&" ∨ t.value = "!&&") then do
      let (right, ts1) ← pbNot fuel ts.tail
      pbAndLoop fuel (if t.value = "&&" then left && right else !(left && right)) ts1
    else
      .ok (left, ts)

/-- parse_and of eval_bool_expression. -/
def pbAnd : Nat → List VLex.Token → Except PError (Bool × List VLex.Token)
  | 0, _ => .error fuelError
  | fuel + 1, ts => do
    let (left, ts1) ← pbNot fuel ts
    pbAndLoop fuel left ts1

/-- The while loop of parse_expression of eval_bool_expression. -/
def pbExprLoop : Nat → Bool → List VLex.Token → Except PError (Bool × List VLex.Token)
  | 0, _, _ => .error fuelError
  | fuel + 1, left, ts =>
    let t := cur ts
    if t.type = .BooleanOperator ∧ t.value ∈ orLevelOps then do
      let (right, ts1) ← pbAnd fuel ts.tail
      pbExprLoop fuel (applyOrOp t.value left right) ts1
    else
      .ok (left, ts)

/-- parse_expression of eval_bool_expression. -/
def pbExpr : Nat → List VLex.Token → Except PError (Bool × List VLex.Token)
  | 0, _ => .error fuelError
  | fuel + 1, ts => do
    let (left, ts1) ← pbAnd fuel ts
    pbExprLoop fuel left ts1

end

/-- Parser::eval_bool_expression — the eager fold wrapped into a BoolNode. -/
def eval_bool_expression (fuel : Nat) (ts : List VLex.Token) :
    Except PError (LiteralNode × List VLex.Token) := do
  let (result, ts1) ← pbExpr fuel ts
  .ok (BoolNode (if result then "true" else "false"), ts1)

/-- Parser::parse_value — dispatch on the declared type; any fall-through
raises the "Unknown type" ParseError. -/
def parse_value (fuel : Nat) (ty : String) (ts : List VLex.Token) :
    Except PError (LiteralNode × List VLex.Token) :=
  if ty = "int" ∨ ty = "float" then
    if (cur ts).type = .Number ∨ (cur ts).type = .Identifier ∨
       ((cur ts).type = .Symbol ∧ ((cur ts).value = "-" ∨ (cur ts).value = "(")) then
      eval_expression fuel ty ts
    else
      .error ⟨"Unknown type", (cur ts).line, (cur ts).column⟩
  else if ty = "bool" then
    if (cur ts).value = "true" ∨ (cur ts).value = "false" then
      .ok (BoolNode (cur ts).value, ts.tail)
    else if (cur ts).type = .BooleanOperator ∨ (cur ts).type = .Symbol ∨
            (cur ts).type = .Identifier ∨ (cur ts).type = .BOOL ∨
            (cur ts).type = .Number then
      eval_bool_expression fuel ts
    else
      .error ⟨"Unknown type", (cur ts).line, (cur ts).column⟩
  else if ty = "string" then
    if (cur ts).type = .STRING then
      .ok (StringNode (cur ts).value, ts.tail)
    else if (cur ts).type = .Identifier then
      .ok (⟨ty, (cur ts).value, true⟩, ts.tail)
    else
      .error ⟨"Unknown type", (cur ts).line, (cur ts).column⟩
  else
    .error ⟨"Unknown type", (cur ts).line, (cur ts).column⟩

/-- Parser::parse_declaration — the first next_token() steps past the
current token (the driver has dispatched on a leading let/const). -/
def parse_declaration (fuel : Nat) (is_const : Bool) (ts : List VLex.Token) :
    Except PError (DeclarationNode × List VLex.Token) :=
  let ts1 := ts.tail
  if (cur ts1).type ≠ .Type then
    .error ⟨"Expected type", (cur ts1).line, (cur ts1).column⟩
  else
    let ty := (cur ts1).value
    let ts2 := ts1.tail
    if (cur ts2).type ≠ .Identifier then
      .error ⟨"Expected identifier", (cur ts2).line, (cur ts2).column⟩
    else
      let name := (cur ts2).value
      let ts3 := ts2.tail
      match expectTok .Symbol "=" ts3 with
      | .error e => .error e
      | .ok ts4 =>
        match parse_value fuel ty ts4 with
        | .error e => .error e
        | .ok (v, ts5) => .ok (⟨is_const, false, ty, name, v⟩, ts5)

/-- Parser::parse_assign. -/
def parse_assign (fuel : Nat) (ts : List VLex.Token) :
    Except PError (AssignNode × List VLex.Token) :=
  if (cur ts).type ≠ .Identifier then
    .error ⟨"Expected target variable", (cur ts).line, (cur ts).column⟩
  else
    let target := (cur ts).value
    match expectTok .Symbol "=" ts.tail with
    | .error e => .error e
    | .ok ts2 =>
      if (cur ts2).type = .Identifier then
        .ok (⟨target, (cur ts2).value, true, none⟩, ts2.tail)
      else if (cur ts2).type = .Number ∨ (cur ts2).type = .STRING ∨ (cur ts2).type = .BOOL then
        .ok (⟨target, (cur ts2).value, false, none⟩, ts2.tail)
      else if (cur ts2).type = .BooleanOperator ∨ (cur ts2).type = .Symbol ∨
              (cur ts2).type = .BOOL then
        match eval_bool_expression fuel ts2 with
        | .error e => .error e
        | .ok (e, ts3) => .ok (⟨target, "", false, some e⟩, ts3)
      else
        .error ⟨"Expected a value or variable after '='", (cur ts2).line, (cur ts2).column⟩

/-- A fuel bound ample for any concrete token list (at most a handful of
fuel units are consumed per token). -/
def fuelFor (ts : List VLex.Token) : Nat := 4 * ts.length + 8

/-- Parser::parse_let. -/
def parse_let (ts : List VLex.Token) : Except PError (DeclarationNode × List VLex.Token) :=
  parse_declaration (fuelFor ts) false ts

/-- Parser::parse_const. -/
def parse_const (ts : List VLex.Token) : Except PError (DeclarationNode × List VLex.Token) :=
  parse_declaration (fuelFor ts) true ts

end VParse

namespace PB

/-- The and-level eager operators (parse_and's while loop). -/
inductive AOp where
  | andOp
  | nandOp
deriving DecidableEq, Repr

/-- The or-level eager operators (parse_expression's while loop). -/
inductive OOp where
  | orOp
  | norOp
  | xorOp
  | nxorOp
  | eqOp
  | neOp
  | impOp
  | nimpOp
  | ltOp
  | leOp
  | gtOp
  | geOp
deriving DecidableEq, Repr

/-- Source spelling of an and-level operator. -/
def AOp.str : AOp → String
  | .andOp => "&&"
  | .nandOp => "!&&"

/-- Source spelling of an or-level operator. -/
def OOp.str : OOp → String
  | .orOp => "||"
  | .norOp => "!||"
  | .xorOp => "xor"
  | .nxorOp => "nxor"
  | .eqOp => "=="
  | .neOp => "!="
  | .impOp => "=>"
  | .nimpOp => "!=>"
  | .ltOp => "<"
  | .leOp => "<="
  | .gtOp => ">"
  | .geOp => ">="

/-- Documented truth table of the and-level operators. -/
def AOp.sem : AOp → Bool → Bool → Bool
  | .andOp, a, b => a && b
  | .nandOp, a, b => !(a && b)

/-- Documented truth table of the or-level operators — the table claim C1
quotes: OR, NOR, a≠b, a=b, a=b, a≠b, (¬a)∨b, a∧¬b, and the pure-boolean
meanings of the relational spellings. -/
def OOp.sem : OOp → Bool → Bool → Bool
  | .orOp, a, b => a || b
  | .norOp, a, b => !(a || b)
  | .xorOp, a, b => a != b
  | .nxorOp, a, b => a == b
  | .eqOp, a, b => a == b
  | .neOp, a, b => a != b
  | .impOp, a, b => !a || b
  | .nimpOp, a, b => a && !b
  | .ltOp, a, b => !a && b
  | .leOp, a, b => !a || b
  | .gtOp, a, b => a && !b
  | .geOp, a, b => a || !b

mutual

/-- Primary pure-boolean expression: a boolean literal or a parenthesized
expression (the grammar of claim C1). -/
inductive Prim where
  | lit : Bool → Prim
  | paren : OrE → Prim

/-- Not-level: zero or more leading negations over a primary. -/
inductive NotE where
  | prim : Prim → NotE
  | neg : NotE → NotE

/-- Tail of a left-folded and-level chain. -/
inductive AndTail where
  | anil : AndTail
  | acons : AOp → NotE → AndTail → AndTail

/-- And-level chain: first operand plus tail. -/
inductive AndE where
  | mk : NotE → AndTail → AndE

/-- Tail of a left-folded or-level chain. -/
inductive OrTail where
  | onil : OrTail
  | ocons : OOp → AndE → OrTail → OrTail

/-- Or-level chain: a full pure-boolean expression. -/
inductive OrE where
  | mk : AndE → OrTail → OrE

end

mutual

/-- Denotation of a primary. -/
def denP : Prim → Bool
  | .lit b => b
  | .paren e => denO e

/-- Denotation of a not-level expression. -/
def denN : NotE → Bool
  | .prim p => denP p
  | .neg n => !(denN n)

/-- Left fold of the truth table over an and-level tail. -/
def denAT : Bool → AndTail → Bool
  | acc, .anil => acc
  | acc, .acons op n t => denAT (op.sem acc (denN n)) t

/-- Denotation of an and-level chain. -/
def denA : AndE → Bool
  | .mk n t => denAT (denN n) t

/-- Left fold of the truth table over an or-level tail. -/
def denOT : Bool → OrTail → Bool
  | acc, .onil => acc
  | acc, .ocons op a t => denOT (op.sem acc (denA a)) t

/-- Denotation of a pure-boolean expression. -/
def denO : OrE → Bool
  | .mk a t => denOT (denA a) t

end

/-- Token of a boolean literal. -/
def boolTok (b : Bool) : VLex.Token := ⟨.BOOL, if b then "true" else "false", 0, 0⟩

/-- Token of an and-level operator. -/
def aopTok (op : AOp) : VLex.Token := ⟨.BooleanOperator, op.str, 0, 0⟩

/-- Token of an or-level operator. -/
def oopTok (op : OOp) : VLex.Token := ⟨.BooleanOperator, op.str, 0, 0⟩

/-- Opening parenthesis token. -/
def lpTok : VLex.Token := ⟨.Symbol, "(", 0, 0⟩

/-- Closing parenthesis token. -/
def rpTok : VLex.Token := ⟨.Symbol, ")", 0, 0⟩

/-- Negation token. -/
def bangTok : VLex.Token := ⟨.BooleanOperator, "!", 0, 0⟩

mutual

/-- Token rendering of a primary. -/
def toksP : Prim → List VLex.Token
  | .lit b => [boolTok b]
  | .paren e => lpTok :: (toksO e ++ [rpTok])

/-- Token rendering of a not-level expression. -/
def toksN : NotE → List VLex.Token
  | .prim p => toksP p
  | .neg n => bangTok :: toksN n

/-- Token rendering of an and-level tail. -/
def toksAT : AndTail → List VLex.Token
  | .anil => []
  | .acons op n t => aopTok op :: (toksN n ++ toksAT t)

/-- Token rendering of an and-level chain. -/
def toksA : AndE → List VLex.Token
  | .mk n t => toksN n ++ toksAT t

/-- Token rendering of an or-level tail. -/
def toksOT : OrTail → List VLex.Token
  | .onil => []
  | .ocons op a t => oopTok op :: (toksA a ++ toksOT t)

/-- Token rendering of a pure-boolean expression. -/
def toksO : OrE → List VLex.Token
  | .mk a t => toksA a ++ toksOT t

end

mutual

/-- Fuel needed by pbPrimary on a primary. -/
def szP : Prim → Nat
  | .lit _ => 1
  | .paren e => szO e + 1

/-- Fuel needed by pbNot on a not-level expression. -/
def szN : NotE → Nat
  | .prim p => szP p + 1
  | .neg n => szN n + 1

/-- Fuel needed by pbAndLoop on an and-level tail. -/
def szAT : AndTail → Nat
  | .anil => 1
  | .acons _ n t => max (szN n) (szAT t) + 1

/-- Fuel needed by pbAnd on an and-level chain. -/
def szA : AndE → Nat
  | .mk n t => max (szN n) (szAT t) + 1

/-- Fuel needed by pbExprLoop on an or-level tail. -/
def szOT : OrTail → Nat
  | .onil => 1
  | .ocons _ a t => max (szA a) (szOT t) + 1

/-- Fuel needed by pbExpr on a pure-boolean expression. -/
def szO : OrE → Nat
  | .mk a t => max (szA a) (szOT t) + 1

end

/-- The continuation of the token stream does not begin with an operator the
and-level folding loop would consume. -/
abbrev noAndOp (ts : List VLex.Token) : Prop :=
  ¬((VParse.cur ts).type = .BooleanOperator ∧
    ((VParse.cur ts).value = "&&" ∨ (VParse.cur ts).value = "!&&"))

/-- The continuation of the token stream does not begin with an operator the
or-level folding loop would consume. -/
abbrev noOrOp (ts : List VLex.Token) : Prop :=
  ¬((VParse.cur ts).type = .BooleanOperator ∧ (VParse.cur ts).value ∈ VParse.orLevelOps)

/-- Reduction of a successful Except bind (do-notation). -/
theorem exceptBindOk {ε α β : Type} (a : α) (k : α → Except ε β) :
    (Except.ok a >>= k) = k a := rfl

/-- The loop-body if-chain of the source coincides with the documented
truth table on every or-level operator spelling. -/
theorem applyOrOp_str (op : OOp) (a b : Bool) :
    VParse.applyOrOp op.str a b = op.sem a b := by
  cases op <;> rfl

/-- A closing parenthesis never continues an and-level fold. -/
theorem noAndOp_rp (rest : List VLex.Token) : noAndOp (rpTok :: rest) := by
  simp [VParse.cur, rpTok]

/-- A closing parenthesis never continues an or-level fold. -/
theorem noOrOp_rp (rest : List VLex.Token) : noOrOp (rpTok :: rest) := by
  simp [VParse.cur, rpTok]

/-- An or-level tail followed by a fold-free continuation never starts with
an and-level operator. -/
theorem noAndOp_toksOT_append (t : OrTail) (rest : List VLex.Token)
    (h1 : noAndOp rest) (_h2 : noOrOp rest) : noAndOp (toksOT t ++ rest) := by
  cases t with
  | onil => simpa [toksOT] using h1
  | ocons op a t2 =>
    simp only [toksOT, List.cons_append]
    cases op <;> simp [VParse.cur, oopTok, OOp.str]

mutual

/-- parse_primary of the eager boolean evaluator computes the denotation of
any primary pure-boolean expression. -/
theorem pbPrimary_correct (p : Prim) (f : Nat) (rest : List VLex.Token) (hf : szP p ≤ f) :
    VParse.pbPrimary f (toksP p ++ rest) = .ok (denP p, rest) := by
  cases f with
  | zero => cases p <;> simp [szP] at hf
  | succ f2 =>
    cases p with
    | lit b =>
      cases b <;> simp [toksP, boolTok, VParse.pbPrimary, VParse.cur, denP]
    | paren e =>
      have hrw : toksP (.paren e) ++ rest = lpTok :: (toksO e ++ (rpTok :: rest)) := by
        simp [toksP]
      rw [hrw]
      have hsz : szO e ≤ f2 := by simp [szP] at hf; omega
      simp only [VParse.pbPrimary, VParse.cur, List.headD_cons, List.tail_cons]
      rw [if_pos (by simp [lpTok])]
      rw [pbExpr_correct e f2 (rpTok :: rest) hsz (noAndOp_rp rest) (noOrOp_rp rest)]
      simp [exceptBindOk, VParse.expectTok, VParse.cur, rpTok, denP]
  termination_by sizeOf p

/-- parse_not of the eager boolean evaluator computes the denotation of any
not-level pure-boolean expression. -/
theorem pbNot_correct (n : NotE) (f : Nat) (rest : List VLex.Token) (hf : szN n ≤ f) :
    VParse.pbNot f (toksN n ++ rest) = .ok (denN n, rest) := by
  cases f with
  | zero => cases n <;> simp [szN] at hf
  | succ f2 =>
    cases n with
    | prim p =>
      have hsz : szP p ≤ f2 := by simp [szN] at hf; omega
      simp only [toksN, VParse.pbNot]
      rw [if_neg, pbPrimary_correct p f2 rest hsz]
      · simp [denN]
      · cases p with
        | lit b => cases b <;> simp [toksP, boolTok, VParse.cur]
        | paren e => simp [toksP, lpTok, VParse.cur]
    | neg n2 =>
      have hsz : szN n2 ≤ f2 := by simp [szN] at hf; omega
      simp only [toksN, List.cons_append, VParse.pbNot, VParse.cur, List.headD_cons,
        List.tail_cons]
      rw [if_pos (by simp [bangTok])]
      rw [pbNot_correct n2 f2 rest hsz]
      simp [exceptBindOk, denN]
  termination_by sizeOf n

/-- The and-level while loop folds exactly the documented truth table over
an and-level tail, stopping at the first non-and-level token. -/
theorem pbAndLoop_correct (t : AndTail) (f : Nat) (acc : Bool) (rest : List VLex.Token)
    (hf : szAT t ≤ f) (hr : noAndOp rest) :
    VParse.pbAndLoop f acc (toksAT t ++ rest) = .ok (denAT acc t, rest) := by
  cases f with
  | zero => cases t <;> simp [szAT] at hf
  | succ f2 =>
    cases t with
    | anil =>
      simp only [toksAT, List.nil_append, VParse.pbAndLoop]
      rw [if_neg hr]
      simp [denAT]
    | acons op n t2 =>
      have hsz1 : szN n ≤ f2 := by simp [szAT] at hf; omega
      have hsz2 : szAT t2 ≤ f2 := by simp [szAT] at hf; omega
      have hrw : toksAT (.acons op n t2) ++ rest
          = aopTok op :: (toksN n ++ (toksAT t2 ++ rest)) := by
        simp [toksAT]
      rw [hrw]
      simp only [VParse.pbAndLoop, VParse.cur, List.headD_cons, List.tail_cons]
      rw [if_pos (by cases op <;> simp [aopTok, AOp.str])]
      rw [pbNot_correct n f2 (toksAT t2 ++ rest) hsz1]
      simp only [exceptBindOk]
      have hsem : (if (aopTok op).value = "&&" then acc && denN n else !(acc && denN n))
          = op.sem acc (denN n) := by
        cases op <;> simp [aopTok, AOp.str, AOp.sem]
      rw [hsem, pbAndLoop_correct t2 f2 (op.sem acc (denN n)) rest hsz2 hr]
      simp [denAT]
  termination_by sizeOf t

/-- parse_and of the eager boolean evaluator computes the denotation of any
and-level chain. -/
theorem pbAnd_correct (a : AndE) (f : Nat) (rest : List VLex.Token)
    (hf : szA a ≤ f) (hr : noAndOp rest) :
    VParse.pbAnd f (toksA a ++ rest) = .ok (denA a, rest) := by
  cases f with
  | zero => cases a; simp [szA] at hf
  | succ f2 =>
    cases a with
    | mk n t =>
      have hsz1 : szN n ≤ f2 := by simp [szA] at hf; omega
      have hsz2 : szAT t ≤ f2 := by simp [szA] at hf; omega
      have hrw : toksA (.mk n t) ++ rest = toksN n ++ (toksAT t ++ rest) := by
        simp [toksA]
      rw [hrw]
      simp only [VParse.pbAnd]
      rw [pbNot_correct n f2 (toksAT t ++ rest) hsz1]
      simp only [exceptBindOk]
      rw [pbAndLoop_correct t f2 (denN n) rest hsz2 hr]
      simp [denA]
  termination_by sizeOf a

/-- The or-level while loop folds exactly the documented truth table over
an or-level tail, stopping at the first token outside the operator set. -/
theorem pbExprLoop_correct (t : OrTail) (f : Nat) (acc : Bool) (rest : List VLex.Token)
    (hf : szOT t ≤ f) (hr1 : noAndOp rest) (hr2 : noOrOp rest) :
    VParse.pbExprLoop f acc (toksOT t ++ rest) = .ok (denOT acc t, rest) := by
  cases f with
  | zero => cases t <;> simp [szOT] at hf
  | succ f2 =>
    cases t with
    | onil =>
      simp only [toksOT, List.nil_append, VParse.pbExprLoop]
      rw [if_neg hr2]
      simp [denOT]
    | ocons op a t2 =>
      have hsz1 : szA a ≤ f2 := by simp [szOT] at hf; omega
      have hsz2 : szOT t2 ≤ f2 := by simp [szOT] at hf; omega
      have hrw : toksOT (.ocons op a t2) ++ rest
          = oopTok op :: (toksA a ++ (toksOT t2 ++ rest)) := by
        simp [toksOT]
      rw [hrw]
      simp only [VParse.pbExprLoop, VParse.cur, List.headD_cons, List.tail_cons]
      rw [if_pos (by cases op <;> simp [oopTok, OOp.str, VParse.orLevelOps])]
      rw [pbAnd_correct a f2 (toksOT t2 ++ rest) hsz1 (noAndOp_toksOT_append t2 rest hr1 hr2)]
      simp only [exceptBindOk]
      rw [show (oopTok op).value = op.str from rfl, applyOrOp_str]
      rw [pbExprLoop_correct t2 f2 (op.sem acc (denA a)) rest hsz2 hr1 hr2]
      simp [denOT]
  termination_by sizeOf t

/-- parse_expression of the eager boolean evaluator computes the denotation
of any pure-boolean expression: the claimed truth table, folded
left-associatively level by level. -/
theorem pbExpr_correct (e : OrE) (f : Nat) (rest : List VLex.Token)
    (hf : szO e ≤ f) (hr1 : noAndOp rest) (hr2 : noOrOp rest) :
    VParse.pbExpr f (toksO e ++ rest) = .ok (denO e, rest) := by
  cases f with
  | zero => cases e; simp [szO] at hf
  | succ f2 =>
    cases e with
    | mk a t =>
      have hsz1 : szA a ≤ f2 := by simp [szO] at hf; omega
      have hsz2 : szOT t ≤ f2 := by simp [szO] at hf; omega
      have hrw : toksO (.mk a t) ++ rest = toksA a ++ (toksOT t ++ rest) := by
        simp [toksO]
      rw [hrw]
      simp only [VParse.pbExpr]
      rw [pbAnd_correct a f2 (toksOT t ++ rest) hsz1 (noAndOp_toksOT_append t rest hr1 hr2)]
      simp only [exceptBindOk]
      rw [pbExprLoop_correct t f2 (denA a) rest hsz2 hr1 hr2]
      simp [denO]
  termination_by sizeOf e

end

end PB

namespace Interp

/-- TokenType from src/lexer.hpp. -/
inductive TokenType where
  | IDENTIFIER
  | NUMBER
  | STRING
  | KEYWORD
  | OPERATOR
  | SEPARATOR
  | END_OF_FILE
  | UNKNOWN
deriving DecidableEq, Repr

/-- Token from src/lexer.hpp. -/
structure Token where
  type : TokenType
  lexeme : String
  line : Nat
  column : Nat
deriving DecidableEq, Repr

/-- Keyword list from src/lexer.hpp. -/
def keywords : List String :=
  ["let", "var", "bool", "true", "false", "const", "null", "class", "self", "func",
   "return", "if", "else if", "elif", "else", "for", "while", "match", "case",
   "break", "continue"]

/-- Lexer state of src/lexer.cpp: remaining characters and 1-based
line/column. -/
structure ILexState where
  rest : List Char
  line : Nat
  column : Nat
deriving DecidableEq, Repr

/-- Lexer::skip_white_space of src/lexer.cpp: spaces, carriage returns,
tabs, newlines, and // line comments (all consumed through advance, so
line/column stay exact here, unlike the other lexer lineage). -/
def iSkipWs : Nat → ILexState → ILexState
  | 0, st => st
  | fuel + 1, st =>
    match st.rest with
    | [] => st
    | c :: cs =>
      if c = ' ' ∨ c = '\r' ∨ c = '\t' ∨ c = '\n' then
        iSkipWs fuel ⟨cs, (VLex.advChar c st.line st.column).1, (VLex.advChar c st.line st.column).2⟩
      else if c = '/' ∧ cs.head? = some '/' then
        iSkipWs fuel
          ⟨(c :: cs).dropWhile (· ≠ '\n'),
           (VLex.advChars ((c :: cs).takeWhile (· ≠ '\n')) st.line st.column).1,
           (VLex.advChars ((c :: cs).takeWhile (· ≠ '\n')) st.line st.column).2⟩
      else st

/-- Lexer::make_token of src/lexer.cpp: the column records where the lexeme
started, reconstructed by subtracting the lexeme length from the current
column. -/
def iMakeToken (ty : TokenType) (lex : List Char) (line col : Nat) : Token :=
  ⟨ty, String.mk lex, line, col - lex.length⟩

/-- The operator first characters recognized by Lexer::tokenize. -/
def opChars : List Char := ['+', '-', '*', '/', '%', '=', '<', '>', '!', '&', '|']

/-- The separator characters recognized by Lexer::tokenize. -/
def sepChars : List Char := ['(', ')', '{', '}', ',', ';', ':', '.']

/-- One classification step of Lexer::tokenize (identifier, number, string
literal, operator with two-character maximal munch, separator, or unknown),
on a nonempty remainder. -/
def iClassify (st : ILexState) : Token × ILexState :=
  match st.rest with
  | [] => (⟨.END_OF_FILE, "", st.line, st.column⟩, st)
  | c :: cs =>
    if isAlphaC c || c = '_' then
      let w := (c :: cs).takeWhile (fun x => isAlnumC x || x = '_')
      let rest := (c :: cs).dropWhile (fun x => isAlnumC x || x = '_')
      let p := VLex.advChars w st.line st.column
      (iMakeToken (if String.mk w ∈ keywords then .KEYWORD else .IDENTIFIER) w p.1 p.2,
       ⟨rest, p.1, p.2⟩)
    else if isDigitC c then
      let d1 := (c :: cs).takeWhile isDigitC
      let r1 := (c :: cs).dropWhile isDigitC
      let fr : List Char × List Char :=
        match r1 with
        | x :: xs =>
          if x = '.' ∨ x = ',' then (x :: xs.takeWhile isDigitC, xs.dropWhile isDigitC)
          else ([], r1)
        | [] => ([], r1)
      let ex : List Char × List Char :=
        match fr.2 with
        | x :: xs =>
          if x = 'e' ∨ x = 'E' ∨ x = '^' then
            match xs with
            | y :: ys =>
              if y = '+' ∨ y = '-' then (x :: y :: ys.takeWhile isDigitC, ys.dropWhile isDigitC)
              else (x :: xs.takeWhile isDigitC, xs.dropWhile isDigitC)
            | [] => ([x], [])
          else ([], fr.2)
        | [] => ([], fr.2)
      let w := d1 ++ fr.1 ++ ex.1
      let p := VLex.advChars w st.line st.column
      (iMakeToken .NUMBER w p.1 p.2, ⟨ex.2, p.1, p.2⟩)
    else if c = '"' ∨ c = '\'' then
      let p0 := VLex.advChar c st.line st.column
      let body := cs.takeWhile (· ≠ c)
      let r1 := cs.dropWhile (· ≠ c)
      let p1 := VLex.advChars body p0.1 p0.2
      match r1 with
      | [] => (iMakeToken .STRING body p1.1 p1.2, ⟨[], p1.1, p1.2⟩)
      | q :: qs =>
        (iMakeToken .STRING body (VLex.advChar q p1.1 p1.2).1 (VLex.advChar q p1.1 p1.2).2,
         ⟨qs, (VLex.advChar q p1.1 p1.2).1, (VLex.advChar q p1.1 p1.2).2⟩)
    else if c ∈ opChars then
      let twoChar : Bool :=
        match cs with
        | d :: _ =>
          (c = '=' ∧ d = '=') ∨ (c = '!' ∧ d = '=') ∨ (c = '&' ∧ d = '&') ∨
          (c = '|' ∧ d = '|') ∨ (c = '<' ∧ d = '=') ∨ (c = '>' ∧ d = '=')
        | [] => false
      if twoChar then
        let w := (c :: cs).take 2
        let p := VLex.advChars w st.line st.column
        (iMakeToken .OPERATOR w p.1 p.2, ⟨(c :: cs).drop 2, p.1, p.2⟩)
      else
        let p := VLex.advChar c st.line st.column
        (iMakeToken .OPERATOR [c] p.1 p.2, ⟨cs, p.1, p.2⟩)
    else if c ∈ sepChars then
      let p := VLex.advChar c st.line st.column
      (iMakeToken .SEPARATOR [c] p.1 p.2, ⟨cs, p.1, p.2⟩)
    else
      let p := VLex.advChar c st.line st.column
      (iMakeToken .UNKNOWN [c] p.1 p.2, ⟨cs, p.1, p.2⟩)

/-- The tokenize loop of src/lexer.cpp; a final END_OF_FILE token is always
appended. -/
def iTokenizeAux : Nat → ILexState → List Token
  | 0, st => [⟨.END_OF_FILE, "", st.line, st.column⟩]
  | fuel + 1, st =>
    let st1 := iSkipWs (st.rest.length + 1) st
    match st1.rest with
    | [] => [⟨.END_OF_FILE, "", st1.line, st1.column⟩]
    | _ :: _ =>
      let r := iClassify st1
      r.1 :: iTokenizeAux fuel r.2

/-- Lexer::tokenize of src/lexer.cpp. -/
def tokenize (s : String) : List Token := iTokenizeAux (s.length + 1) ⟨s.data, 1, 1⟩

/-- AST node taxonomy from src/ast.hpp restricted to the shapes the
expression parser produces and eval consumes; the statement-level nodes
(ASTProgram, ASTFunction, ASTClass, ASTIf, ASTReturn) are not exercised by
any claim — like ASTUnaryOp they would fall to the final
"Unknown AST node type" throw of eval. -/
inductive ASTNode where
  | literal : String → ASTNode
  | variableRef : String → ASTNode
  | binaryOp : String → ASTNode → ASTNode → ASTNode
  | unaryOp : String → ASTNode → ASTNode
  | assign : ASTNode → ASTNode → ASTNode
  | varDecl : String → Bool → Option ASTNode → ASTNode
deriving Repr

/-- The parser's lookahead: Parser::peek returns tokens.back() past the end,
and the token vector always ends with END_OF_FILE, so the default is an
END_OF_FILE token. -/
def icur (ts : List Token) : Token := ts.headD ⟨.END_OF_FILE, "", 0, 0⟩

/-- Parser::match of src/parser.cpp: fails at end of input, otherwise
consumes a token of the given type (and lexeme, when nonempty). -/
def imatch (ty : TokenType) (lex : String) (ts : List Token) :
    Option (Token × List Token) :=
  if (icur ts).type = .END_OF_FILE then none
  else if (icur ts).type = ty ∧ (lex = "" ∨ (icur ts).lexeme = lex) then
    some (icur ts, ts.tail)
  else none

/-! The expression precedence ladder of src/parser.cpp
(expression → assignement → logic_or → logic_and → equality → comparison →
term → factor → unary → primary), with each while loop as a *Loop
function.  A none result models the nullptr the source returns after
printing a diagnostic. -/

mutual

/-- Parser::expression. -/
def iExpression : Nat → List Token → Option (ASTNode × List Token)
  | 0, _ => none
  | fuel + 1, ts => iAssignement fuel ts

/-- Parser::assignement. -/
def iAssignement : Nat → List Token → Option (ASTNode × List Token)
  | 0, _ => none
  | fuel + 1, ts => do
    let (e, ts1) ← iLogicOr fuel ts
    match imatch .OPERATOR "=" ts1 with
    | some (_, ts2) => do
      let (v, ts3) ← iAssignement fuel ts2
      match e with
      | .variableRef _ => some (.assign e v, ts3)
      | _ => none
    | none => some (e, ts1)

/-- Parser::logic_or. -/
def iLogicOr : Nat → List Token → Option (ASTNode × List Token)
  | 0, _ => none
  | fuel + 1, ts => do
    let (e, ts1) ← iLogicAnd fuel ts
    iLogicOrLoop fuel e ts1

/-- The while loop of Parser::logic_or. -/
def iLogicOrLoop : Nat → ASTNode → List Token → Option (ASTNode × List Token)
  | 0, _, _ => none
  | fuel + 1, e, ts =>
    match imatch .OPERATOR "||" ts with
    | some (_, ts1) => do
      let (r, ts2) ← iLogicAnd fuel ts1
      iLogicOrLoop fuel (.binaryOp "||" e r) ts2
    | none => some (e, ts)

/-- Parser::logic_and. -/
def iLogicAnd : Nat → List Token → Option (ASTNode × List Token)
  | 0, _ => none
  | fuel + 1, ts => do
    let (e, ts1) ← iEquality fuel ts
    iLogicAndLoop fuel e ts1

/-- The while loop of Parser::logic_and. -/
def iLogicAndLoop : Nat → ASTNode → List Token → Option (ASTNode × List Token)
  | 0, _, _ => none
  | fuel + 1, e, ts =>
    match imatch .OPERATOR "&&" ts with
    | some (_, ts1) => do
      let (r, ts2) ← iEquality fuel ts1
      iLogicAndLoop fuel (.binaryOp "&&" e r) ts2
    | none => some (e, ts)

/-- Parser::equality. -/
def iEquality : Nat → List Token → Option (ASTNode × List Token)
  | 0, _ => none
  | fuel + 1, ts => do
    let (e, ts1) ← iComparison fuel ts
    iEqualityLoop fuel e ts1

/-- The while loop of Parser::equality. -/
def iEqualityLoop : Nat → ASTNode → List Token → Option (ASTNode × List Token)
  | 0, _, _ => none
  | fuel + 1, e, ts =>
    match imatch .OPERATOR "==" ts with
    | some (_, ts1) => do
      let (r, ts2) ← iComparison fuel ts1
      iEqualityLoop fuel (.binaryOp "==" e r) ts2
    | none =>
      match imatch .OPERATOR "!=" ts with
      | some (_, ts1) => do
        let (r, ts2) ← iComparison fuel ts1
        iEqualityLoop fuel (.binaryOp "!=" e r) ts2
      | none => some (e, ts)

/-- Parser::comparison. -/
def iComparison : Nat → List Token → Option (ASTNode × List Token)
  | 0, _ => none
  | fuel + 1, ts => do
    let (e, ts1) ← iTerm fuel ts
    iComparisonLoop fuel e ts1

/-- The while loop of Parser::comparison. -/
def iComparisonLoop : Nat → ASTNode → List Token → Option (ASTNode × List Token)
  | 0, _, _ => none
  | fuel + 1, e, ts =>
    match imatch .OPERATOR "<" ts with
    | some (_, ts1) => do
      let (r, ts2) ← iTerm fuel ts1
      iComparisonLoop fuel (.binaryOp "<" e r) ts2
    | none =>
      match imatch .OPERATOR ">" ts with
      | some (_, ts1) => do
        let (r, ts2) ← iTerm fuel ts1
        iComparisonLoop fuel (.binaryOp ">" e r) ts2
      | none =>
        match imatch .OPERATOR "<=" ts with
        | some (_, ts1) => do
          let (r, ts2) ← iTerm fuel ts1
          iComparisonLoop fuel (.binaryOp "<=" e r) ts2
        | none =>
          match imatch .OPERATOR ">=" ts with
          | some (_, ts1) => do
            let (r, ts2) ← iTerm fuel ts1
            iComparisonLoop fuel (.binaryOp ">=" e r) ts2
          | none => some (e, ts)

/-- Parser::term. -/
def iTerm : Nat → List Token → Option (ASTNode × List Token)
  | 0, _ => none
  | fuel + 1, ts => do
    let (e, ts1) ← iFactor fuel ts
    iTermLoop fuel e ts1

/-- The while loop of Parser::term (+ and -). -/
def iTermLoop : Nat → ASTNode → List Token → Option (ASTNode × List Token)
  | 0, _, _ => none
  | fuel + 1, e, ts =>
    match imatch .OPERATOR "+" ts with
    | some (_, ts1) => do
      let (r, ts2) ← iFactor fuel ts1
      iTermLoop fuel (.binaryOp "+" e r) ts2
    | none =>
      match imatch .OPERATOR "-" ts with
      | some (_, ts1) => do
        let (r, ts2) ← iFactor fuel ts1
        iTermLoop fuel (.binaryOp "-" e r) ts2
      | none => some (e, ts)

/-- Parser::factor. -/
def iFactor : Nat → List Token → Option (ASTNode × List Token)
  | 0, _ => none
  | fuel + 1, ts => do
    let (e, ts1) ← iUnary fuel ts
    iFactorLoop fuel e ts1

/-- The while loop of Parser::factor (*, / and %). -/
def iFactorLoop : Nat → ASTNode → List Token → Option (ASTNode × List Token)
  | 0, _, _ => none
  | fuel + 1, e, ts =>
    match imatch .OPERATOR "*" ts with
    | some (_, ts1) => do
      let (r, ts2) ← iUnary fuel ts1
      iFactorLoop fuel (.binaryOp "*" e r) ts2
    | none =>
      match imatch .OPERATOR "/" ts with
      | some (_, ts1) => do
        let (r, ts2) ← iUnary fuel ts1
        iFactorLoop fuel (.binaryOp "/" e r) ts2
      | none =>
        match imatch .OPERATOR "%" ts with
        | some (_, ts1) => do
          let (r, ts2) ← iUnary fuel ts1
          iFactorLoop fuel (.binaryOp "%" e r) ts2
        | none => some (e, ts)

/-- Parser::unary. -/
def iUnary : Nat → List Token → Option (ASTNode × List Token)
  | 0, _ => none
  | fuel + 1, ts =>
    match imatch .OPERATOR "!" ts with
    | some (_, ts1) => do
      let (r, ts2) ← iUnary fuel ts1
      some (.unaryOp "!" r, ts2)
    | none =>
      match imatch .OPERATOR "-" ts with
      | some (_, ts1) => do
        let (r, ts2) ← iUnary fuel ts1
        some (.unaryOp "-" r, ts2)
      | none => iPrimary fuel ts

/-- Parser::primary. -/
def iPrimary : Nat → List Token → Option (ASTNode × List Token)
  | 0, _ => none
  | fuel + 1, ts =>
    match imatch .NUMBER "" ts with
    | some (t, ts1) => some (.literal t.lexeme, ts1)
    | none =>
      match imatch .STRING "" ts with
      | some (t, ts1) => some (.literal t.lexeme, ts1)
      | none =>
        match imatch .KEYWORD "true" ts with
        | some (_, ts1) => some (.literal "true", ts1)
        | none =>
          match imatch .KEYWORD "false" ts with
          | some (_, ts1) => some (.literal "false", ts1)
          | none =>
            match imatch .IDENTIFIER "" ts with
            | some (t, ts1) => some (.variableRef t.lexeme, ts1)
            | none =>
              match imatch .SEPARATOR "(" ts with
              | some (_, ts1) => do
                let (e, ts2) ← iExpression fuel ts1
                match imatch .SEPARATOR ")" ts2 with
                | some (_, ts3) => some (e, ts3)
                | none => none
              | none => none

end

/-- Value from src/ast.hpp (the tagged union); doubles are exact rationals
as explained in the header comment. -/
inductive Value where
  | vInt : Int → Value
  | vDouble : VParse.Frac → Value
  | vBool : Bool → Value
  | vString : String → Value
deriving DecidableEq, Repr

/-- VariableInfo from src/ast.hpp. -/
structure VariableInfo where
  value : Value
  isConst : Bool
deriving DecidableEq, Repr

/-- Environment = unordered_map of name to VariableInfo, modelled as an
association list whose keys stay unique (find = first match, operator-[]
assignment = replace-or-append). -/
abbrev Environment := List (String × VariableInfo)

/-- unordered_map::find. -/
def envFind (n : String) : Environment → Option VariableInfo
  | [] => none
  | (m, v) :: rest => if m = n then some v else envFind n rest

/-- unordered_map operator[] assignment: replace the existing entry or
append a new one. -/
def envSet (n : String) (v : VariableInfo) : Environment → Environment
  | [] => [(n, v)]
  | (m, w) :: rest => if m = n then (m, v) :: rest else (m, w) :: envSet n v rest

/-- Writing through the iterator `it->second.value = val`: update the value
field of the existing entry, keeping its isConst flag. -/
def envSetValue (n : String) (v : Value) : Environment → Environment
  | [] => []
  | (m, w) :: rest =>
    if m = n then (m, ⟨v, w.isConst⟩) :: rest else (m, w) :: envSetValue n v rest

/-- Model of std::stoi (base 10): optional C-locale whitespace, optional
sign, longest digit run.  Returns the value and the number of characters
consumed (the idx out-parameter).  none models both std::invalid_argument
(no digits) and std::out_of_range (outside the 32-bit int range of the
reference platform) — eval catches every exception identically. -/
def stoiIdx (l : List Char) : Option (Int × Nat) :=
  let ws := l.takeWhile isSpaceC
  let l1 := l.dropWhile isSpaceC
  let sg : Bool × Nat × List Char :=
    match l1 with
    | '-' :: t => (true, 1, t)
    | '+' :: t => (false, 1, t)
    | _ => (false, 0, l1)
  let ds := sg.2.2.takeWhile isDigitC
  if ds = [] then none
  else
    let v : Int := if sg.1 then -(VParse.digitsToNat ds : Int) else (VParse.digitsToNat ds : Int)
    if v < -(2 ^ 31) ∨ (2 ^ 31) - 1 < v then none
    else some (v, ws.length + sg.2.1 + ds.length)

/-- The double overflow bound 2^1024 (the first power of two beyond the
double range), written as a repeated square so that it reduces shallowly. -/
def dblOvfBound : Int := ((2 : Int) ^ 64) ^ 16

/-- Model of std::stod: optional whitespace, optional sign, decimal
mantissa, optional well-formed exponent; value as an exact rational (IEEE
rounding abstracted) with the consumed-character count.  none models
std::invalid_argument; double overflow (std::out_of_range, magnitude at or
beyond 2^1024) also yields none since eval catches every exception
identically; the hexadecimal/infinity/NaN strtod forms and the
implementation-defined underflow case are outside the model (no claim
touches them). -/
def stodIdx (l : List Char) : Option (VParse.Frac × Nat) :=
  let ws := l.takeWhile isSpaceC
  let l1 := l.dropWhile isSpaceC
  let sg : Bool × Nat × List Char :=
    match l1 with
    | '-' :: t => (true, 1, t)
    | '+' :: t => (false, 1, t)
    | _ => (false, 0, l1)
  let ip := sg.2.2.takeWhile isDigitC
  let r1 := sg.2.2.dropWhile isDigitC
  let fr : List Char × Nat × List Char :=
    match r1 with
    | '.' :: t => (t.takeWhile isDigitC, 1 + (t.takeWhile isDigitC).length, t.dropWhile isDigitC)
    | _ => ([], 0, r1)
  if ip = [] ∧ fr.1 = [] then none
  else
    let mantNum : Int :=
      (VParse.digitsToNat ip : Int) * (10 : Int) ^ fr.1.length + (VParse.digitsToNat fr.1 : Int)
    let mantDen : Int := (10 : Int) ^ fr.1.length
    let exlen : Nat :=
      match fr.2.2 with
      | x :: t =>
        if x = 'e' ∨ x = 'E' then
          match t with
          | y :: ys =>
            if y = '+' ∨ y = '-' then
              if ys.takeWhile isDigitC = [] then 0 else 2 + (ys.takeWhile isDigitC).length
            else if t.takeWhile isDigitC = [] then 0 else 1 + (t.takeWhile isDigitC).length
          | [] => 0
        else 0
      | [] => 0
    let ex : Int :=
      match fr.2.2 with
      | x :: t => if (x = 'e' ∨ x = 'E') ∧ exlen ≠ 0 then VParse.expPart t else 0
      | [] => 0
    let signedNum : Int := if sg.1 then -mantNum else mantNum
    let q : VParse.Frac :=
      if 0 ≤ ex then ⟨signedNum * (10 : Int) ^ ex.toNat, mantDen⟩
      else ⟨signedNum, mantDen * (10 : Int) ^ (-ex).toNat⟩
    if dblOvfBound * q.den ≤ q.num ∨ q.num ≤ -(dblOvfBound * q.den) then none
    else some (q, ws.length + sg.2.1 + ip.length + fr.2.1 + exlen)

/-- The float probe and string fallback of literal evaluation in eval
(src/ast.hpp): stod must consume the whole text, else the literal text
itself is the value. -/
def literalFloatProbe (val : String) : Value :=
  match stodIdx val.data with
  | some (q, idx) => if idx = val.length then .vDouble q else .vString val
  | none => .vString val

/-- Literal evaluation of eval (src/ast.hpp): "true"/"false" first, then
full-consumption stoi, then full-consumption stod, then string fallback. -/
def evalLiteral (val : String) : Value :=
  if val = "true" then .vBool true
  else if val = "false" then .vBool false
  else
    match stoiIdx val.data with
    | some (n, idx) => if idx = val.length then .vInt n else literalFloatProbe val
    | none => literalFloatProbe val

/-- Result of eval: a value, or a thrown std::runtime_error message;
both carry the environment as mutated up to that point (the C++ env is a
by-reference parameter that survives the throw). -/
inductive EvalResult where
  | ok : Value → Environment → EvalResult
  | err : String → Environment → EvalResult
deriving DecidableEq, Repr

/-- eval from src/ast.hpp.  Binary arithmetic is defined only for int⊕int
(with C++ truncating division); assignment checks target existence and
constness before evaluating the right-hand side; declaration evaluates the
initializer first and only then rejects redeclaration.  The unaryOp case
falls through every dynamic cast to the final "Unknown AST node type"
throw. -/
def eval : ASTNode → Environment → EvalResult
  | .literal val, env => .ok (evalLiteral val) env
  | .variableRef n, env =>
    match envFind n env with
    | none => .err ("Variable not defined: " ++ n) env
    | some info => .ok info.value env
  | .binaryOp op l r, env =>
    match eval l env with
    | .err e env1 => .err e env1
    | .ok lv env1 =>
      match eval r env1 with
      | .err e env2 => .err e env2
      | .ok rv env2 =>
        match lv, rv with
        | .vInt li, .vInt ri =>
          if op = "+" then .ok (.vInt (li + ri)) env2
          else if op = "-" then .ok (.vInt (li - ri)) env2
          else if op = "*" then .ok (.vInt (li * ri)) env2
          else if op = "/" then
            if ri = 0 then .err "Division by zero" env2
            else .ok (.vInt (li.tdiv ri)) env2
          else .err "Unsupported binary operation or type mismatch" env2
        | _, _ => .err "Unsupported binary operation or type mismatch" env2
  | .assign t v, env =>
    match t with
    | .variableRef n =>
      match envFind n env with
      | none => .err ("Variable not defined: " ++ n) env
      | some info =>
        if info.isConst then .err ("Cannot assign to constant variable: " ++ n) env
        else
          match eval v env with
          | .err e env1 => .err e env1
          | .ok val env1 => .ok val (envSetValue n val env1)
    | _ => .err "Assignment target must be a variable" env
  | .varDecl n c init, env =>
    match (match init with
           | some e => eval e env
           | none => EvalResult.ok (.vInt 0) env) with
    | .err e env1 => .err e env1
    | .ok val env1 =>
      if (envFind n env1).isSome then .err ("Variable already declared: " ++ n) env1
      else .ok val (envSet n ⟨val, c⟩ env1)
  | .unaryOp _ _, env => .err "Unknown AST node type" env

end Interp

namespace CodeGen

/-- SymbolKind from src/backend/parser/code_generator.cpp. -/
inductive SymbolKind where
  | VARIABLE
  | CONSTANT
deriving DecidableEq, Repr

/-- SymbolInfo from src/backend/parser/code_generator.cpp. -/
structure SymbolInfo where
  types : String
  value : String
  is_reference : Bool
  kind : SymbolKind
deriving DecidableEq, Repr

/-- The symbol table (an unordered_map keyed by name), modelled as an
association list whose keys stay unique. -/
abbrev SymbolTable := List (String × SymbolInfo)

/-- unordered_map::find on the symbol table. -/
def tblFind (n : String) : SymbolTable → Option SymbolInfo
  | [] => none
  | (m, v) :: rest => if m = n then some v else tblFind n rest

/-- unordered_map operator[] assignment on the symbol table:
replace-or-append. -/
def tblSet (n : String) (v : SymbolInfo) : SymbolTable → SymbolTable
  | [] => [(n, v)]
  | (m, w) :: rest => if m = n then (m, v) :: rest else (m, w) :: tblSet n v rest

/-- CodeGenerator::is_declared — note that the entry must exist *with the
requested const-ness*: an entry of the other kind makes this return
false. -/
def is_declared (tbl : SymbolTable) (name : String) (isConst : Bool) : Bool :=
  match tblFind name tbl with
  | some info =>
    (isConst && info.kind == SymbolKind.CONSTANT) || (!isConst && info.kind == SymbolKind.VARIABLE)
  | none => false

/-- CodeGenerator::is_const. -/
def is_const (tbl : SymbolTable) (name : String) : Bool :=
  match tblFind name tbl with
  | some info => info.kind == SymbolKind.CONSTANT
  | none => false

/-- CodeGenerator::format_literal. -/
def format_literal (node : VParse.LiteralNode) : String :=
  if node.type = "string" ∧ ¬node.is_reference then "\"" ++ node.value ++ "\""
  else if node.type = "bool" then (if node.value = "true" then "true" else "false")
  else if node.type = "float" then
    String.mk (node.value.data.map (fun c => if c = ',' then '.' else c))
  else node.value

/-- CodeGenerator::convert_type. -/
def convert_type (t : String) : String := if t = "string" then "std::string" else t

/-- CodeGenerator::indent. -/
def indentStr (level : Nat) : String := String.join (List.replicate level "    ")

/-- The initializer text emitted by CodeGenerator::generate_declaration
(the MultiOpBoolNode dynamic cast of the source can never succeed —
MultiOpBoolNode does not derive from LiteralNode — and is omitted as dead
code). -/
def decl_value_text (node : VParse.DeclarationNode) : String :=
  if node.type = "string" ∧ ¬node.is_reference then "\"" ++ node.value.value ++ "\""
  else if node.is_reference then node.value.value
  else format_literal node.value

/-- The redeclaration warning comment of generate_declaration (the kind
argument equals CONSTANT exactly when the node is const). -/
def decl_warning_text (node : VParse.DeclarationNode) : String :=
  "// Warning: " ++ (if node.is_const then "constant" else "variable")
  ++ " '" ++ node.name ++ "' already declared\n"

/-- The declaration statement line of generate_declaration. -/
def decl_stmt_text (node : VParse.DeclarationNode) : String :=
  (if node.is_const then "const " else "")
  ++ convert_type node.type ++ " " ++ node.name ++ " = " ++ decl_value_text node ++ ";\n"

/-- CodeGenerator::generate_declaration: emit (possibly after a warning
comment) the target-language declaration, registering the symbol only when
is_declared with the node's const-ness fails.  Returns the updated table
and the emitted text; the function cannot throw. -/
def generate_declaration (node : VParse.DeclarationNode) (indent_level : Nat)
    (tbl : SymbolTable) : SymbolTable × String :=
  let kind : SymbolKind := if node.is_const then .CONSTANT else .VARIABLE
  let declared := is_declared tbl node.name node.is_const
  let tbl1 :=
    if declared then tbl
    else tblSet node.name ⟨node.type, node.value.value, node.is_reference, kind⟩ tbl
  let out :=
    indentStr indent_level
    ++ (if declared then decl_warning_text node else "")
    ++ decl_stmt_text node
  (tbl1, out)

/-- CodeGenerator::generate_assign: the undeclared check runs is_declared
with the default false const-ness, so a constant target already fails
there; the is_const branch is therefore unreachable but kept.  The expr
slot, when present, always holds the BoolNode built by parse_assign (the
MultiOpBoolNode cast is dead code, and the "/* unsupported expr */" fallback
is unreachable from the parser).  The table is never modified. -/
def generate_assign (node : VParse.AssignNode) (indent_level : Nat)
    (tbl : SymbolTable) : SymbolTable × String :=
  if !is_declared tbl node.target_variable false then
    (tbl, indentStr indent_level ++ "// Error: variable '" ++ node.target_variable
          ++ "' is not declared\n")
  else if is_const tbl node.target_variable then
    (tbl, indentStr indent_level ++ "// Error: cannot assign to constant '"
          ++ node.target_variable ++ "'\n")
  else
    let rhs :=
      match node.expr with
      | some e => format_literal e
      | none =>
        if node.is_reference then node.source_variable
        else if ((tblFind node.target_variable tbl).map (·.types)).getD "" = "string"
                ∧ ¬node.source_variable.contains '"' then
          "\"" ++ node.source_variable ++ "\""
        else format_literal ⟨"", node.source_variable, false⟩
    (tbl, indentStr indent_level ++ node.target_variable ++ " = " ++ rhs ++ ";\n")

/-- The statement shapes CodeGenerator::generate_node dispatches on;
LogNode, MultiOpNode, MultiOpBoolNode and unknown nodes only emit text and
never touch the symbol table, so one `other` constructor covers them. -/
inductive GStmt where
  | decl : VParse.DeclarationNode → GStmt
  | assignS : VParse.AssignNode → GStmt
  | other : GStmt

/-- The symbol-table effect of CodeGenerator::generate_node on one
statement. -/
def genStep (tbl : SymbolTable) : GStmt → SymbolTable
  | .decl d => (generate_declaration d 0 tbl).1
  | .assignS a => (generate_assign a 0 tbl).1
  | .other => tbl

/-- The symbol-table effect of generating a whole statement sequence. -/
def runGen (stmts : List GStmt) (tbl : SymbolTable) : SymbolTable :=
  stmts.foldl genStep tbl

end CodeGen

/-! Claim theorems. -/

/-- A concrete pure-boolean expression (true !&& false) used to witness
claim C1. -/
def c1WitnessExpr : PB.OrE :=
  .mk (.mk (.prim (.lit true)) (.acons .nandOp (.prim (.lit false)) .anil)) .onil

/-- C1: on every pure-boolean expression (boolean literals, possibly
parenthesized or negated, chained with the and-level and or-level
operators), the parser's eager boolean evaluation eval_bool_expression
returns a BoolNode realizing exactly the documented truth table (OOp.sem /
AOp.sem, folded left-associatively); concretely, lexing and eagerly
evaluating "true !&& false" yields true, "true xor true" yields false,
"true => false" yields false, and "1 < 2" (numeric operands) is a numeric
comparison yielding true. -/
theorem claim_C1 :
    (∀ (e : PB.OrE) (rest : List VLex.Token), PB.noAndOp rest → PB.noOrOp rest →
      VParse.eval_bool_expression (PB.szO e) (PB.toksO e ++ rest)
        = .ok (VParse.BoolNode (if PB.denO e then "true" else "false"), rest))
    ∧ (VParse.eval_bool_expression 40 (VLex.lexAll "true !&& false")).map (·.1)
        = .ok (VParse.BoolNode "true")
    ∧ (VParse.eval_bool_expression 40 (VLex.lexAll "true xor true")).map (·.1)
        = .ok (VParse.BoolNode "false")
    ∧ (VParse.eval_bool_expression 40 (VLex.lexAll "true => false")).map (·.1)
        = .ok (VParse.BoolNode "false")
    ∧ (VParse.eval_bool_expression 40 (VLex.lexAll "1 < 2")).map (·.1)
        = .ok (VParse.BoolNode "true") := by
  refine ⟨?_, rfl, rfl, rfl, rfl⟩
  intro e rest h1 h2
  unfold VParse.eval_bool_expression
  rw [PB.pbExpr_correct e (PB.szO e) rest le_rfl h1 h2]
  rfl

/-- Witness for claim C1: the universal part applied to the concrete
expression true !&& false with an empty continuation. -/
theorem claim_C1_witness :
    VParse.eval_bool_expression (PB.szO c1WitnessExpr) (PB.toksO c1WitnessExpr ++ [])
      = .ok (VParse.BoolNode (if PB.denO c1WitnessExpr then "true" else "false"), []) :=
  claim_C1.1 c1WitnessExpr [] (by decide) (by decide)

/-- C2: for the input "let int x = 2 + 3 * 4", the codegen-path parser
folds the initializer to the text "(2 + (3 * 4))" inside an int-typed
DeclarationNode; and the evaluator path parses "2 + 3 * 4" into the
left-leaning BinaryOp tree 2 + (3 * 4) and evaluates it to the int value
14. -/
theorem claim_C2 :
    (VParse.parse_let (VLex.lexAll "let int x = 2 + 3 * 4")).map
        (fun p => (p.1.name, p.1.type, p.1.value))
      = .ok ("x", "int", VParse.IntNode "(2 + (3 * 4))")
    ∧ (Interp.iTerm 20 (Interp.tokenize "2 + 3 * 4")).map (·.1)
      = some (.binaryOp "+" (.literal "2")
          (.binaryOp "*" (.literal "3") (.literal "4")))
    ∧ (Interp.iTerm 20 (Interp.tokenize "2 + 3 * 4")).map
        (fun p => Interp.eval p.1 [])
      = some (.ok (.vInt 14) []) := by
  exact ⟨rfl, rfl, by decide⟩

/-- The type check `left.type == ValueType::INT` of eval in src/ast.hpp. -/
def Interp.Value.isInt : Interp.Value → Bool
  | .vInt _ => true
  | _ => false

/-- C3: evaluating an int/int division whose right operand is 0 throws
"Division by zero" (no value is produced, the environment mutated so far is
carried by the error); and whenever either operand is not an int, or the
operator is outside {+,-,*,/}, evaluation throws the unsupported-operation
error instead of producing a value. -/
theorem claim_C3 : ∀ (l r : Interp.ASTNode) (env env1 env2 : Interp.Environment)
    (li : Int) (op : String) (vl vr : Interp.Value),
    ((Interp.eval l env = .ok (.vInt li) env1) →
     (Interp.eval r env1 = .ok (.vInt 0) env2) →
     Interp.eval (.binaryOp "/" l r) env = .err "Division by zero" env2)
    ∧ ((Interp.eval l env = .ok vl env1) →
       (Interp.eval r env1 = .ok vr env2) →
       (vl.isInt = false ∨ vr.isInt = false ∨
        (op ≠ "+" ∧ op ≠ "-" ∧ op ≠ "*" ∧ op ≠ "/")) →
       Interp.eval (.binaryOp op l r) env
         = .err "Unsupported binary operation or type mismatch" env2) := by
  intro l r env env1 env2 li op vl vr
  constructor
  · intro h1 h2
    simp [Interp.eval, h1, h2]
  · intro h1 h2 h3
    rcases h3 with h3 | h3 | ⟨hp, hm, ht, hd⟩
    · cases vl <;> simp [Interp.Value.isInt] at h3 <;> cases vr <;>
        simp [Interp.eval, h1, h2]
    · cases vr <;> simp [Interp.Value.isInt] at h3 <;> cases vl <;>
        simp [Interp.eval, h1, h2]
    · cases vl <;> cases vr <;> simp [Interp.eval, h1, h2, hp, hm, ht, hd]

/-- Witness for claim C3: the concrete division 4 / 0 in the empty
environment, and the concrete mistyped operation true + 1. -/
theorem claim_C3_witness :
    Interp.eval (.binaryOp "/" (.literal "4") (.literal "0")) []
      = .err "Division by zero" []
    ∧ Interp.eval (.binaryOp "+" (.literal "true") (.literal "1")) []
      = .err "Unsupported binary operation or type mismatch" [] :=
  ⟨(claim_C3 (.literal "4") (.literal "0") [] [] [] 4 "/" (.vInt 4) (.vInt 0)).1
      (by decide) (by decide),
   (claim_C3 (.literal "true") (.literal "1") [] [] [] 1 "+" (.vBool true) (.vInt 1)).2
      (by decide) (by decide) (by decide)⟩

/-- The claim's spelling of literal evaluation, for the refinement proof of
C9: full-text integer probe first, then full-text float probe, then the
boolean literals, then the string fallback.  intFull/floatFull reuse the
same stoi/stod models the code-order definition uses. -/
def intFull (val : String) : Option Int :=
  match Interp.stoiIdx val.data with
  | some (n, idx) => if idx = val.length then some n else none
  | none => none

/-- Full-text float probe of the claim's spelling (see intFull). -/
def floatFull (val : String) : Option VParse.Frac :=
  match Interp.stodIdx val.data with
  | some (q, idx) => if idx = val.length then some q else none
  | none => none

/-- literal evaluation as the claim words it: ordered type probing with
int first, float second, boolean literals third, string fallback last. -/
def literalSpecProbe (val : String) : Interp.Value :=
  match intFull val with
  | some n => .vInt n
  | none =>
    match floatFull val with
    | some q => .vDouble q
    | none =>
      if val = "true" then .vBool true
      else if val = "false" then .vBool false
      else .vString val

/-- C9: the tree-walking evaluator's literal evaluation agrees, on every
literal text, with the claim's ordered type probing (the code checks
"true"/"false" before the numeric probes, but those texts never parse as
numbers, so the two orders coincide); partial numeric prefixes never
succeed thanks to the full-consumption checks inside intFull/floatFull. -/
theorem claim_C9 : ∀ val : String, Interp.evalLiteral val = literalSpecProbe val := by
  intro val
  by_cases ht : val = "true"
  · subst ht; decide
  · by_cases hf : val = "false"
    · subst hf; decide
    · unfold Interp.evalLiteral literalSpecProbe intFull floatFull Interp.literalFloatProbe
      rw [if_neg ht, if_neg hf]
      cases hsi : Interp.stoiIdx val.data with
      | none =>
        cases hsd : Interp.stodIdx val.data with
        | none => simp [ht, hf]
        | some p =>
          cases p with
          | mk q idx => by_cases hl : idx = val.length <;> simp [hl, ht, hf]
      | some p =>
        cases p with
        | mk n idx =>
          by_cases hl : idx = val.length
          · simp [hl]
          · simp only [if_neg hl]
            cases hsd : Interp.stodIdx val.data with
            | none => simp [ht, hf]
            | some p2 =>
              cases p2 with
              | mk q idx2 => by_cases hl2 : idx2 = val.length <;> simp [hl2, ht, hf]

/-- Looking up the updated name after envSetValue: the new value with the
entry's stored isConst flag. -/
theorem envFind_envSetValue_self (x : String) (v w : Interp.Value)
    (env : Interp.Environment) (h : Interp.envFind x env = some ⟨w, false⟩) :
    Interp.envFind x (Interp.envSetValue x v env) = some ⟨v, false⟩ := by
  induction env with
  | nil => simp [Interp.envFind] at h
  | cons hd tl ih =>
    cases hd with
    | mk m u =>
      by_cases hm : m = x
      · subst hm
        simp [Interp.envFind, Interp.envSetValue] at h ⊢
        rw [h]
      · simp [Interp.envFind, Interp.envSetValue, hm] at h ⊢
        exact ih h

/-- envSetValue leaves every other name's entry unchanged. -/
theorem envFind_envSetValue_frame (x y : String) (v : Interp.Value)
    (env : Interp.Environment) (hy : y ≠ x) :
    Interp.envFind y (Interp.envSetValue x v env) = Interp.envFind y env := by
  induction env with
  | nil => simp [Interp.envSetValue]
  | cons hd tl ih =>
    cases hd with
    | mk m u =>
      by_cases hm : m = x
      · subst hm
        have hne : m ≠ y := fun h => hy h.symm
        simp [Interp.envFind, Interp.envSetValue, hne]
      · simp [Interp.envFind, Interp.envSetValue, hm, ih]

/-- C10: assigning a side-effect-free expression to a declared non-const
variable returns the expression's value, rebinds exactly that variable
(keeping its isConst flag false), and leaves every other name's entry
untouched. -/
theorem claim_C10 : ∀ (env : Interp.Environment) (x : String) (w v : Interp.Value)
    (e : Interp.ASTNode),
    Interp.envFind x env = some ⟨w, false⟩ →
    Interp.eval e env = .ok v env →
    Interp.eval (.assign (.variableRef x) e) env
        = .ok v (Interp.envSetValue x v env)
      ∧ Interp.envFind x (Interp.envSetValue x v env) = some ⟨v, false⟩
      ∧ ∀ y, y ≠ x →
          Interp.envFind y (Interp.envSetValue x v env) = Interp.envFind y env := by
  intro env x w v e h1 h2
  refine ⟨?_, envFind_envSetValue_self x v w env h1, ?_⟩
  · simp [Interp.eval, h1, h2]
  · intro y hy
    exact envFind_envSetValue_frame x y v env hy

/-- Looking up a name right after tblSet inserted or replaced it. -/
theorem tblFind_tblSet_self (n : String) (v : CodeGen.SymbolInfo)
    (tbl : CodeGen.SymbolTable) :
    CodeGen.tblFind n (CodeGen.tblSet n v tbl) = some v := by
  induction tbl with
  | nil => simp [CodeGen.tblSet, CodeGen.tblFind]
  | cons hd tl ih =>
    cases hd with
    | mk m w =>
      by_cases hm : m = n
      · subst hm; simp [CodeGen.tblSet, CodeGen.tblFind]
      · simp [CodeGen.tblSet, CodeGen.tblFind, hm, ih]

/-- tblSet leaves every other name's entry unchanged. -/
theorem tblFind_tblSet_ne (n y : String) (v : CodeGen.SymbolInfo)
    (tbl : CodeGen.SymbolTable) (hy : y ≠ n) :
    CodeGen.tblFind y (CodeGen.tblSet n v tbl) = CodeGen.tblFind y tbl := by
  have hny : n ≠ y := fun h => hy h.symm
  induction tbl with
  | nil => simp [CodeGen.tblSet, CodeGen.tblFind, hny]
  | cons hd tl ih =>
    cases hd with
    | mk m w =>
      by_cases hm : m = n
      · subst hm
        have hne : m ≠ y := fun h => hy h.symm
        simp [CodeGen.tblSet, CodeGen.tblFind, hne]
      · simp [CodeGen.tblSet, CodeGen.tblFind, hm, ih]

/-- Looking up a name right after envSet inserted or replaced it. -/
theorem envFind_envSet_self (n : String) (v : Interp.VariableInfo)
    (env : Interp.Environment) :
    Interp.envFind n (Interp.envSet n v env) = some v := by
  induction env with
  | nil => simp [Interp.envSet, Interp.envFind]
  | cons hd tl ih =>
    cases hd with
    | mk m w =>
      by_cases hm : m = n
      · subst hm; simp [Interp.envSet, Interp.envFind]
      · simp [Interp.envSet, Interp.envFind, hm, ih]

/-- C4: redeclaring a name that already exists with the same const-ness is
asymmetric across the two backends.  Codegen path: the symbol table keeps
the original binding, a warning comment is emitted before the declaration
line, and nothing is thrown (generate_declaration is a total function).
Evaluator path: the declaration throws "Variable already declared" (after
the initializer has been evaluated, as the source does).  And after a first
valid declaration the name is present in the symbol table / environment. -/
theorem claim_C4 :
    (∀ (d : VParse.DeclarationNode) (tbl : CodeGen.SymbolTable),
      CodeGen.is_declared tbl d.name d.is_const = true →
      (CodeGen.generate_declaration d 0 tbl).1 = tbl
        ∧ (CodeGen.generate_declaration d 0 tbl).2
            = CodeGen.indentStr 0 ++ CodeGen.decl_warning_text d ++ CodeGen.decl_stmt_text d)
    ∧ (∀ (d : VParse.DeclarationNode) (tbl : CodeGen.SymbolTable),
      CodeGen.tblFind d.name tbl = none →
      CodeGen.tblFind d.name (CodeGen.generate_declaration d 0 tbl).1
        = some ⟨d.type, d.value.value, d.is_reference,
                if d.is_const then .CONSTANT else .VARIABLE⟩)
    ∧ (∀ (x : String) (c : Bool) (init : Interp.ASTNode)
        (env env1 : Interp.Environment) (v : Interp.Value),
      Interp.eval init env = .ok v env1 →
      (Interp.envFind x env1).isSome = true →
      Interp.eval (.varDecl x c (some init)) env
        = .err ("Variable already declared: " ++ x) env1)
    ∧ (∀ (x : String) (c : Bool) (init : Interp.ASTNode)
        (env env1 : Interp.Environment) (v : Interp.Value),
      Interp.eval init env = .ok v env1 →
      Interp.envFind x env1 = none →
      Interp.eval (.varDecl x c (some init)) env = .ok v (Interp.envSet x ⟨v, c⟩ env1)
        ∧ Interp.envFind x (Interp.envSet x ⟨v, c⟩ env1) = some ⟨v, c⟩) := by
  refine ⟨?_, ?_, ?_, ?_⟩
  · intro d tbl h
    constructor
    · simp [CodeGen.generate_declaration, h]
    · simp [CodeGen.generate_declaration, h]
  · intro d tbl h
    have hnd : CodeGen.is_declared tbl d.name d.is_const = false := by
      simp [CodeGen.is_declared, h]
    simp [CodeGen.generate_declaration, hnd, tblFind_tblSet_self]
  · intro x c init env env1 v h1 h2
    simp [Interp.eval, h1, h2]
  · intro x c init env env1 v h1 h2
    refine ⟨?_, envFind_envSet_self x ⟨v, c⟩ env1⟩
    simp [Interp.eval, h1, h2]

/-- Witness for claim C4: the variable x redeclared (same const-ness) on
both backends, and first declarations of a fresh name y. -/
theorem claim_C4_witness :
    ((CodeGen.generate_declaration ⟨false, false, "int", "x", VParse.IntNode "1"⟩ 0
        [("x", ⟨"int", "1", false, .VARIABLE⟩)]).1
      = [("x", ⟨"int", "1", false, .VARIABLE⟩)]
      ∧ (CodeGen.generate_declaration ⟨false, false, "int", "x", VParse.IntNode "1"⟩ 0
          [("x", ⟨"int", "1", false, .VARIABLE⟩)]).2
        = CodeGen.indentStr 0
          ++ CodeGen.decl_warning_text ⟨false, false, "int", "x", VParse.IntNode "1"⟩
          ++ CodeGen.decl_stmt_text ⟨false, false, "int", "x", VParse.IntNode "1"⟩)
    ∧ CodeGen.tblFind "y"
        (CodeGen.generate_declaration ⟨false, false, "int", "y", VParse.IntNode "1"⟩ 0 []).1
      = some ⟨"int", "1", false, .VARIABLE⟩
    ∧ Interp.eval (.varDecl "x" false (some (.literal "1")))
        [("x", ⟨.vInt 1, false⟩)]
      = .err "Variable already declared: x" [("x", ⟨.vInt 1, false⟩)]
    ∧ (Interp.eval (.varDecl "y" false (some (.literal "1"))) []
        = .ok (.vInt 1) (Interp.envSet "y" ⟨.vInt 1, false⟩ [])
      ∧ Interp.envFind "y" (Interp.envSet "y" ⟨.vInt 1, false⟩ []) = some ⟨.vInt 1, false⟩) := by
  refine ⟨?_, ?_, ?_, ?_⟩
  · exact claim_C4.1 ⟨false, false, "int", "x", VParse.IntNode "1"⟩
      [("x", ⟨"int", "1", false, .VARIABLE⟩)] (by decide)
  · exact claim_C4.2.1 ⟨false, false, "int", "y", VParse.IntNode "1"⟩ [] (by decide)
  · exact claim_C4.2.2.1 "x" false (.literal "1") [("x", ⟨.vInt 1, false⟩)]
      [("x", ⟨.vInt 1, false⟩)] (.vInt 1) (by decide) (by decide)
  · exact claim_C4.2.2.2 "y" false (.literal "1") [] [] (.vInt 1) (by decide) (by decide)

/-- C5: assignment error handling.  Codegen path: an undeclared target, and
likewise a const-declared target (which is_declared with the default false
const-ness also classifies as not declared), produce an error comment and
leave the symbol table unchanged (generate_assign is total — never a
crash).  Evaluator path: an undeclared target throws before any mutation,
and a const target throws before the right-hand side is even evaluated, so
the environment is unchanged regardless of the assigned value's shape. -/
theorem claim_C5 :
    (∀ (a : VParse.AssignNode) (tbl : CodeGen.SymbolTable),
      CodeGen.tblFind a.target_variable tbl = none →
      CodeGen.generate_assign a 0 tbl
        = (tbl, CodeGen.indentStr 0 ++ "// Error: variable '" ++ a.target_variable
                ++ "' is not declared\n"))
    ∧ (∀ (a : VParse.AssignNode) (tbl : CodeGen.SymbolTable)
        (info : CodeGen.SymbolInfo),
      CodeGen.tblFind a.target_variable tbl = some info →
      info.kind = .CONSTANT →
      CodeGen.generate_assign a 0 tbl
        = (tbl, CodeGen.indentStr 0 ++ "// Error: variable '" ++ a.target_variable
                ++ "' is not declared\n"))
    ∧ (∀ (x : String) (e : Interp.ASTNode) (env : Interp.Environment),
      Interp.envFind x env = none →
      Interp.eval (.assign (.variableRef x) e) env
        = .err ("Variable not defined: " ++ x) env)
    ∧ (∀ (x : String) (e : Interp.ASTNode) (env : Interp.Environment)
        (w : Interp.Value),
      Interp.envFind x env = some ⟨w, true⟩ →
      Interp.eval (.assign (.variableRef x) e) env
        = .err ("Cannot assign to constant variable: " ++ x) env) := by
  refine ⟨?_, ?_, ?_, ?_⟩
  · intro a tbl h
    have hnd : CodeGen.is_declared tbl a.target_variable false = false := by
      simp [CodeGen.is_declared, h]
    simp [CodeGen.generate_assign, hnd]
  · intro a tbl info h hk
    have hnd : CodeGen.is_declared tbl a.target_variable false = false := by
      simp [CodeGen.is_declared, h, hk]
    simp [CodeGen.generate_assign, hnd]
  · intro x e env h
    simp [Interp.eval, h]
  · intro x e env w h
    simp [Interp.eval, h]

/-- Witness for claim C5: an undeclared target z and a const target k on
both backends, with an arbitrary assigned shape. -/
theorem claim_C5_witness :
    CodeGen.generate_assign ⟨"z", "1", false, none⟩ 0 []
      = ([], CodeGen.indentStr 0 ++ "// Error: variable '" ++ "z" ++ "' is not declared\n")
    ∧ CodeGen.generate_assign ⟨"k", "1", false, none⟩ 0
        [("k", ⟨"int", "1", false, .CONSTANT⟩)]
      = ([("k", ⟨"int", "1", false, .CONSTANT⟩)],
         CodeGen.indentStr 0 ++ "// Error: variable '" ++ "k" ++ "' is not declared\n")
    ∧ Interp.eval (.assign (.variableRef "z") (.literal "1")) []
      = .err "Variable not defined: z" []
    ∧ Interp.eval (.assign (.variableRef "k") (.literal "1"))
        [("k", ⟨.vInt 1, true⟩)]
      = .err "Cannot assign to constant variable: k" [("k", ⟨.vInt 1, true⟩)] := by
  refine ⟨?_, ?_, ?_, ?_⟩
  · exact claim_C5.1 ⟨"z", "1", false, none⟩ [] (by decide)
  · exact claim_C5.2.1 ⟨"k", "1", false, none⟩ [("k", ⟨"int", "1", false, .CONSTANT⟩)]
      ⟨"int", "1", false, .CONSTANT⟩ (by decide) (by decide)
  · exact claim_C5.2.2.1 "z" (.literal "1") [] (by decide)
  · exact claim_C5.2.2.2 "k" (.literal "1") [("k", ⟨.vInt 1, true⟩)] (.vInt 1) (by decide)

/-- The keys after tblSet: unchanged when the name was present, appended
otherwise. -/
theorem tblSet_keys (n : String) (v : CodeGen.SymbolInfo)
    (tbl : CodeGen.SymbolTable) :
    (CodeGen.tblSet n v tbl).map Prod.fst =
      if n ∈ tbl.map Prod.fst then tbl.map Prod.fst else tbl.map Prod.fst ++ [n] := by
  induction tbl with
  | nil => simp [CodeGen.tblSet]
  | cons hd tl ih =>
    cases hd with
    | mk m w =>
      by_cases hm : m = n
      · subst hm; simp [CodeGen.tblSet]
      · have hnm : ¬n = m := fun h => hm h.symm
        by_cases hc : n ∈ tl.map Prod.fst <;>
          simp [CodeGen.tblSet, hm, ih, hnm, hc]

/-- tblSet preserves key uniqueness. -/
theorem tblSet_keys_nodup (n : String) (v : CodeGen.SymbolInfo)
    (tbl : CodeGen.SymbolTable) (h : (tbl.map Prod.fst).Nodup) :
    ((CodeGen.tblSet n v tbl).map Prod.fst).Nodup := by
  rw [tblSet_keys]
  by_cases hc : n ∈ tbl.map Prod.fst
  · simpa [hc] using h
  · simp [hc, List.nodup_append, h]

/-- generate_assign never modifies the symbol table (not even on
success — only the emitted text depends on the branch). -/
theorem generate_assign_fst (a : VParse.AssignNode) (lvl : Nat)
    (tbl : CodeGen.SymbolTable) : (CodeGen.generate_assign a lvl tbl).1 = tbl := by
  unfold CodeGen.generate_assign
  split
  · rfl
  · split
    · rfl
    · rfl

/-- One generate_node step keeps the entry of x untouched, provided the
step is not a declaration of x with the opposite const-ness. -/
theorem genStep_preserves (tbl : CodeGen.SymbolTable) (x : String)
    (info : CodeGen.SymbolInfo) (s : CodeGen.GStmt)
    (h : CodeGen.tblFind x tbl = some info)
    (hc : ∀ d, s = CodeGen.GStmt.decl d → d.name = x →
      (if d.is_const then CodeGen.SymbolKind.CONSTANT else .VARIABLE) = info.kind) :
    CodeGen.tblFind x (CodeGen.genStep tbl s) = some info := by
  cases s with
  | other => exact h
  | assignS a => simpa [CodeGen.genStep, generate_assign_fst] using h
  | decl d =>
    by_cases hn : d.name = x
    · have hk := hc d rfl hn
      have hdecl : CodeGen.is_declared tbl d.name d.is_const = true := by
        rw [hn]
        cases hdc : d.is_const <;> rw [hdc] at hk <;>
          simp [CodeGen.is_declared, h, ← hk]
      simpa [CodeGen.genStep, CodeGen.generate_declaration, hdecl] using h
    · by_cases hdecl : CodeGen.is_declared tbl d.name d.is_const = true
      · simpa [CodeGen.genStep, CodeGen.generate_declaration, hdecl] using h
      · simp only [Bool.not_eq_true] at hdecl
        have hne : x ≠ d.name := fun hh => hn hh.symm
        simp [CodeGen.genStep, CodeGen.generate_declaration, hdecl,
          tblFind_tblSet_ne d.name x _ tbl hne, h]

/-- One generate_node step preserves key uniqueness of the symbol table. -/
theorem genStep_nodup (tbl : CodeGen.SymbolTable) (s : CodeGen.GStmt)
    (h : (tbl.map Prod.fst).Nodup) :
    ((CodeGen.genStep tbl s).map Prod.fst).Nodup := by
  cases s with
  | other => exact h
  | assignS a => simpa [CodeGen.genStep, generate_assign_fst] using h
  | decl d =>
    by_cases hdecl : CodeGen.is_declared tbl d.name d.is_const = true
    · simpa [CodeGen.genStep, CodeGen.generate_declaration, hdecl] using h
    · simp only [Bool.not_eq_true] at hdecl
      rw [CodeGen.genStep]
      simp only [CodeGen.generate_declaration, hdecl, if_false]
      exact tblSet_keys_nodup _ _ _ h

/-- C6 counterexample: the claim as stated is false on the code.  After
`let int x = 1` the entry of x has kind VARIABLE; processing the later
declaration `const int x = 2` (a declaration of the same name, which the
claim says can never change the kind) overwrites the entry, whose kind
becomes CONSTANT — is_declared(name, true) returns false on a VARIABLE
entry, so generate_declaration re-registers instead of warning. -/
theorem claim_C6_counterexample :
    (CodeGen.tblFind "x"
        (CodeGen.runGen [.decl ⟨false, false, "int", "x", VParse.IntNode "1"⟩] [])).map
        (·.kind)
      = some .VARIABLE
    ∧ (CodeGen.tblFind "x"
        (CodeGen.runGen [.decl ⟨false, false, "int", "x", VParse.IntNode "1"⟩,
                         .decl ⟨true, false, "int", "x", VParse.IntNode "2"⟩] [])).map
        (·.kind)
      = some .CONSTANT := by
  exact ⟨rfl, rfl⟩

/-- C6 amended: for every statement sequence processed by the
code-generator backend, a name holds at most one symbol-table entry (key
uniqueness is invariant); and the entry of a name — its kind included — is
unchanged by every later statement, as long as each later declaration of
that name carries the same const-ness as the entry's kind (a declaration
with the opposite const-ness replaces the entry, changing its kind, as the
counterexample shows; assignments never alter the table). -/
theorem claim_C6 :
    (∀ (stmts : List CodeGen.GStmt) (tbl : CodeGen.SymbolTable),
      (tbl.map Prod.fst).Nodup → ((CodeGen.runGen stmts tbl).map Prod.fst).Nodup)
    ∧ (∀ (stmts : List CodeGen.GStmt) (tbl : CodeGen.SymbolTable) (x : String)
        (info : CodeGen.SymbolInfo),
      CodeGen.tblFind x tbl = some info →
      (∀ d, CodeGen.GStmt.decl d ∈ stmts → d.name = x →
        (if d.is_const then CodeGen.SymbolKind.CONSTANT else .VARIABLE) = info.kind) →
      CodeGen.tblFind x (CodeGen.runGen stmts tbl) = some info) := by
  constructor
  · intro stmts
    induction stmts with
    | nil => intro tbl h; exact h
    | cons s rest ih =>
      intro tbl h
      exact ih (CodeGen.genStep tbl s) (genStep_nodup tbl s h)
  · intro stmts
    induction stmts with
    | nil => intro tbl x info h _; exact h
    | cons s rest ih =>
      intro tbl x info h hc
      refine ih (CodeGen.genStep tbl s) x info ?_ ?_
      · exact genStep_preserves tbl x info s h
          (fun d hd hn => hc d (by rw [hd]; exact List.mem_cons_self _ _) hn)
      · exact fun d hd hn => hc d (List.mem_cons_of_mem _ hd) hn

/-- Witness for claim C6 (amended): a same-const-ness redeclaration of x
followed by an assignment leaves the unique entry of x — kind included —
unchanged. -/
theorem claim_C6_witness :
    (((CodeGen.runGen [.decl ⟨false, false, "int", "x", VParse.IntNode "2"⟩,
                       .assignS ⟨"x", "3", false, none⟩]
        [("x", ⟨"int", "1", false, .VARIABLE⟩)]).map Prod.fst).Nodup)
    ∧ CodeGen.tblFind "x"
        (CodeGen.runGen [.decl ⟨false, false, "int", "x", VParse.IntNode "2"⟩,
                         .assignS ⟨"x", "3", false, none⟩]
          [("x", ⟨"int", "1", false, .VARIABLE⟩)])
      = some ⟨"int", "1", false, .VARIABLE⟩ := by
  constructor
  · exact claim_C6.1 [.decl ⟨false, false, "int", "x", VParse.IntNode "2"⟩,
      .assignS ⟨"x", "3", false, none⟩] [("x", ⟨"int", "1", false, .VARIABLE⟩)] (by simp)
  · refine claim_C6.2 [.decl ⟨false, false, "int", "x", VParse.IntNode "2"⟩,
      .assignS ⟨"x", "3", false, none⟩] [("x", ⟨"int", "1", false, .VARIABLE⟩)] "x"
      ⟨"int", "1", false, .VARIABLE⟩ (by decide) ?_
    intro d hd hn
    cases hd with
    | head => rfl
    | tail _ hd2 =>
      cases hd2 with
      | tail _ hd3 => cases hd3

/-- skip_white_space does nothing once the input is exhausted. -/
theorem skipWs_nil (f : Nat) (st : VLex.LexState) (h : st.rest = []) :
    VLex.skipWs f st = st := by
  cases st with
  | mk r l c =>
    replace h : r = [] := h
    subst h
    cases f <;> rfl

/-- Word classification never yields an EndOfFile token type. -/
theorem classifyWord_ne_eof (w : String) : VLex.classifyWord w ≠ .EndOfFile := by
  unfold VLex.classifyWord
  split
  · simp
  · split
    · simp
    · split
      · simp
      · split <;> simp

/-- The classification core returns EndOfFile exactly on an exhausted
input, leaving the state untouched. -/
theorem nextTokenCore_eof (st : VLex.LexState)
    (h : (VLex.nextTokenCore st).1.type = .EndOfFile) :
    st.rest = [] ∧ VLex.nextTokenCore st = (⟨.EndOfFile, "", st.line, st.column⟩, st) := by
  cases st with
  | mk r l col =>
    cases r with
    | nil => exact ⟨rfl, rfl⟩
    | cons x xs =>
      exfalso
      simp only [VLex.nextTokenCore, VLex.classifyWord] at h
      repeat' split at h
      all_goals simp_all

/-- C7: the lexer is total and classifies every input.  First conjunct:
whenever the front of the input is already past whitespace/comments and the
head character matches no three- or two-character operator, is not a letter
or underscore, not a quote, not a digit, and none of the single-character
operator characters, next_token returns that single character as a Symbol
token and advances by exactly one character (it never throws — the
embedding is a total function).  Second conjunct: once next_token returns
EndOfFile it keeps returning the very same EndOfFile token on every
subsequent call (idempotence at end of file). -/
theorem claim_C7 :
    (∀ (st : VLex.LexState) (c : Char) (cs : List Char),
      VLex.skipWs (st.rest.length + 1) st = st →
      st.rest = c :: cs →
      ¬((c :: cs).length ≥ 3 ∧ String.mk ((c :: cs).take 3) ∈ VLex.threeOps) →
      ¬((c :: cs).length ≥ 2 ∧ String.mk ((c :: cs).take 2) ∈ VLex.twoOps) →
      (isAlphaC c || c = '_') = false →
      c ≠ '"' →
      isDigitC c = false →
      (c = '<' || c = '>') = false →
      c ≠ '!' →
      VLex.nextToken st
        = (⟨.Symbol, String.mk [c], st.line, st.column⟩,
           ⟨cs, (VLex.advChar c st.line st.column).1, (VLex.advChar c st.line st.column).2⟩))
    ∧ (∀ st : VLex.LexState, (VLex.nextToken st).1.type = .EndOfFile →
        VLex.nextToken (VLex.nextToken st).2 = VLex.nextToken st) := by
  constructor
  · intro st c cs h1 h2 h3 h4 h5 h6 h7 h8 h9
    rw [VLex.nextToken, h1]
    cases st with
    | mk r l col =>
      replace h2 : r = c :: cs := h2
      subst h2
      simp only [VLex.nextTokenCore]
      rw [if_neg h3, if_neg h4, if_neg (by simp [h5]), if_neg h6,
        if_neg (by simp [h7]), if_neg (by simp [h8]), if_neg h9]
  · intro st h
    rw [VLex.nextToken] at h
    obtain ⟨hnil, heq⟩ := nextTokenCore_eof _ h
    have hnt : VLex.nextToken st
        = (⟨.EndOfFile, "", (VLex.skipWs (st.rest.length + 1) st).line,
            (VLex.skipWs (st.rest.length + 1) st).column⟩,
           VLex.skipWs (st.rest.length + 1) st) := heq
    rw [hnt]
    show VLex.nextToken (VLex.skipWs (st.rest.length + 1) st) = _
    rw [VLex.nextToken, skipWs_nil _ _ hnil]
    exact heq

/-- Witness for claim C7: the unrecognized character @ at the front of the
input, and idempotence from an exhausted state. -/
theorem claim_C7_witness :
    VLex.nextToken ⟨['@'], 1, 1⟩
      = (⟨.Symbol, String.mk ['@'], 1, 1⟩,
         ⟨[], (VLex.advChar '@' 1 1).1, (VLex.advChar '@' 1 1).2⟩)
    ∧ VLex.nextToken (VLex.nextToken ⟨[], 3, 7⟩).2 = VLex.nextToken ⟨[], 3, 7⟩ :=
  ⟨claim_C7.1 ⟨['@'], 1, 1⟩ '@' [] (by decide) rfl (by decide) (by decide) (by decide)
      (by decide) (by decide) (by decide) (by decide),
   claim_C7.2 ⟨[], 3, 7⟩ (by decide)⟩

/-- C8 (code bug): in the input "/**/x" the lexeme x is preceded by the
four block-comment characters, so its true 1-based column is 5; but
skip_white_space advances `pos += 2` over both comment delimiters without
touching the column counter, so next_token reports column 1 for it (the
claim, like the spec, requires the true column). -/
theorem claim_C8_bug :
    VLex.nextToken (VLex.initState "/**/x")
      = (⟨.Identifier, "x", 1, 1⟩, ⟨[], 1, 2⟩)
    ∧ "/**/x".data.take 4 = ['/', '*', '*', '/']
    ∧ "/**/x".data.getD 4 ' ' = 'x' := by
  exact ⟨by decide, by decide, by decide⟩

/-- Witness for claim C10: assigning the literal 5 to the declared
variable x bound to int 1. -/
theorem claim_C10_witness :
    Interp.eval (.assign (.variableRef "x") (.literal "5"))
        [("x", ⟨.vInt 1, false⟩)]
      = .ok (.vInt 5) (Interp.envSetValue "x" (.vInt 5) [("x", ⟨.vInt 1, false⟩)])
    ∧ Interp.envFind "x" (Interp.envSetValue "x" (.vInt 5) [("x", ⟨.vInt 1, false⟩)])
      = some ⟨.vInt 5, false⟩
    ∧ ∀ y, y ≠ "x" →
        Interp.envFind y (Interp.envSetValue "x" (.vInt 5) [("x", ⟨.vInt 1, false⟩)])
        = Interp.envFind y [("x", ⟨.vInt 1, false⟩)] :=
  claim_C10 [("x", ⟨.vInt 1, false⟩)] "x" (.vInt 1) (.vInt 5) (.literal "5")
    (by decide) (by decide)

end VYRN
